import Mathlib

/-!
# k8s-api-coverage: the admission recorder, the query handlers and the client helpers

A shallow embedding of `pkg/webhook/apicoverage_recorder.go`, `pkg/webhook/webhook.go`,
`pkg/tools/tools.go`, `cmd/k8s-api-coverage-client/main.go` and
`cmd/k8s-api-coverage-server/main.go`.

Conventions of the embedding:

* a Go `map[K]V` is a list of entries with pairwise distinct keys (`GoMap.WF`); the order of
  the list stands for the order in which `range` visits the map;
* the packages `resourcetree`, `coveragecalculator` and `view`, and the libraries the handlers
  call (`encoding/json`, the apimachinery decoder, `inflect`, `strings`), are outside the
  embedded files: their operations are the fields of `Packages`;
* `float64` percentages are exact rationals;
* the buffered channel `resourceChannel` is the list of the messages sent and not yet received,
  oldest first. A send on a full channel parks the sender until the worker receives, and the
  runtime delivers the parked messages in the order of the sends, so the list holds the
  buffered messages followed by the parked ones;
* what a function does outside the program (the cluster, the network, the file system, the
  race of two channels) is a field of a world structure, an error being `some` of its text;
* the artifacts directory is a tree of regular files and directories on which the calls of
  `filepath.Walk` and `os.Remove` succeed.
-/

namespace ApiCoverage

/-! ## Go maps -/

/-- A Go map: its entries, in the order `range` visits them. -/
abbrev GoMap (K V : Type) := List (K × V)

namespace GoMap

variable {K V : Type}

/-- The keys of the map, in iteration order. -/
def keys (m : GoMap K V) : List K := m.map Prod.fst

/-- A Go map holds one entry per key. -/
def WF (m : GoMap K V) : Prop := (keys m).Nodup

/-- The lookup `v, ok := m[k]`. -/
def get? [DecidableEq K] : GoMap K V → K → Option V
  | [], _ => none
  | (k', v) :: rest, k => if k' = k then some v else get? rest k

/-- The assignment `m[k] = v`: it replaces the value of an existing key and adds a missing one. -/
def set [DecidableEq K] : GoMap K V → K → V → GoMap K V
  | [], k, v => [(k, v)]
  | (k', v') :: rest, k, v => if k' = k then (k, v) :: rest else (k', v') :: set rest k v

/-- The number of entries, `len(m)`. -/
def size (m : GoMap K V) : Nat := m.length

end GoMap

/-! ## Kubernetes types the handlers read -/

/-- The type `schema.GroupVersionKind`. -/
structure GroupVersionKind where
  Group : String
  Version : String
  Kind : String
deriving DecidableEq, Repr

/-- A byte slice. -/
abbrev Bytes := List Nat

/-- The type `admission/v1beta1.Operation`, a string. -/
abbrev Operation := String

/-- The fields of `v1beta1.AdmissionRequest` that the recorder reads:
`Kind`, `Operation` and `Object.Raw`. -/
structure AdmissionRequest where
  Kind : GroupVersionKind
  Operation : Operation
  Raw : Bytes
deriving DecidableEq, Repr

/-- The type `v1beta1.AdmissionResponse` with `Result.Message`. -/
structure AdmissionResponse where
  Allowed : Bool
  Message : String
deriving DecidableEq, Repr

/-- The type `v1beta1.AdmissionReview`: both fields are pointers. -/
structure AdmissionReview where
  Request : Option AdmissionRequest
  Response : Option AdmissionResponse
deriving DecidableEq, Repr

/-- What the handlers read of an `http.Request`: the outcome of `ioutil.ReadAll(r.Body)` and
the query parameters of the URL. -/
structure HttpRequest where
  body : Except String Bytes
  query : List (String × String)

/-- The call `r.URL.Query().Get(key)`: the first value of the key, the empty string when the
key is absent. -/
def HttpRequest.queryGet (r : HttpRequest) (key : String) : String :=
  match r.query.find? (fun p => p.1 == key) with
  | some p => p.2
  | none => ""

/-! ## Coverage values -/

/-- The type `coveragecalculator.CoverageValues`. -/
structure CoverageValues where
  TotalFields : Nat
  CoveredFields : Nat
  PercentCoverage : ℚ
deriving DecidableEq

/-- The zero value `coveragecalculator.CoverageValues{}`. -/
def CoverageValues.zero : CoverageValues := ⟨0, 0, 0⟩

/-- Modelled from the spec: the method `CoverageValues.Accumulate` of package
`coveragecalculator`, which "sums totals/covered across multiple CoverageValues and
recomputes the percentage", the percentage being 100 × covered / total with 0/0 read as 0. -/
def CoverageValues.Accumulate (c other : CoverageValues) : CoverageValues :=
  { TotalFields := c.TotalFields + other.TotalFields
    CoveredFields := c.CoveredFields + other.CoveredFields
    PercentCoverage :=
      100 * ((c.CoveredFields + other.CoveredFields : Nat) : ℚ)
        / ((c.TotalFields + other.TotalFields : Nat) : ℚ) }

/-- The type `coveragecalculator.CoveragePercentages`. -/
structure CoveragePercentages where
  ResourceCoverages : GoMap String ℚ

/-- The type `coveragecalculator.IgnoredFields`: a set of field paths. -/
abbrev IgnoredFields := List String

/-! ## The packages outside the embedded files -/

/-- The types of the packages the recorder is linked with. -/
structure Sig where
  /-- The type `reflect.Type`. -/
  Ty : Type
  /-- The type `resourcetree.ResourceTree`: a root node and a pointer to the forest. -/
  Tree : Type
  /-- The contents of the nodes the trees point to. -/
  Nodes : Type
  /-- A value unmarshalled into a registered type. -/
  Val : Type
  /-- The type `coveragecalculator.TypeCoverage`. -/
  TypeCoverage : Type
  /-- The type `resourcetree.NodeRules`. -/
  NodeRules : Type
  /-- The type `resourcetree.FieldRules`. -/
  FieldRules : Type
  /-- The type `view.DisplayRules`. -/
  DisplayRules : Type

/-- The operations the recorder calls in packages outside the embedded files. -/
structure Packages (S : Sig) where
  /-- The call `decoder.Decode(body, nil, review)` on an empty review. -/
  Decode : Bytes → Except String AdmissionReview
  /-- The call `json.Unmarshal(raw, reflect.New(ty).Interface())`; `none` is an error. -/
  Unmarshal : S.Ty → Bytes → Option S.Val
  /-- Unmarshalling an empty input is an error ("unexpected end of JSON input"). -/
  Unmarshal_nil : ∀ ty, Unmarshal ty [] = none
  /-- The zero value `resourcetree.ResourceTree{}`, which a map lookup gives for a missing key. -/
  ZeroTree : S.Tree
  /-- The tree that `AddResourceTree` builds for a name and a type, and the nodes once it has
  registered those of the tree. -/
  NewTree : String → S.Ty → S.Nodes → S.Tree × S.Nodes
  /-- The method `ResourceTree.UpdateCoverage`: it writes to the nodes of the tree. -/
  UpdateCoverage : S.Tree → S.Val → S.Nodes → S.Nodes
  /-- The method `ResourceTree.BuildCoverageData`. -/
  BuildCoverageData : S.Tree → S.Nodes → S.NodeRules → S.FieldRules → IgnoredFields →
    List S.TypeCoverage
  /-- The function `coveragecalculator.CalculateTypeCoverage`. -/
  CalculateTypeCoverage : List S.TypeCoverage → CoverageValues
  /-- The function `view.GetHTMLDisplay`. -/
  GetHTMLDisplay : List S.TypeCoverage → CoverageValues → Except String String
  /-- The function `inflect.Pluralize`. -/
  Pluralize : String → String
  /-- The function `strings.ToLower`. -/
  ToLower : String → String

/-! ## The recorder -/

/-- The type `resourceChannelMsg`. -/
structure resourceChannelMsg where
  resourceGVK : GroupVersionKind
  rawResourceValue : Bytes
deriving DecidableEq, Repr

/-- The fields of `resourcetree.ResourceForest` that the recorder reads, and the contents of
the nodes its trees point to. -/
structure ResourceForest (S : Sig) where
  TopLevelTrees : GoMap String S.Tree
  Nodes : S.Nodes

/-- The type `APICoverageRecorder`. -/
structure APICoverageRecorder (S : Sig) where
  ResourceForest : ResourceForest S
  ResourceMap : GoMap GroupVersionKind S.Ty
  NodeRules : S.NodeRules
  FieldRules : S.FieldRules
  DisplayRules : S.DisplayRules
  resourceChannel : List resourceChannelMsg
  ignoredFields : IgnoredFields

/-- The constant `resourceChannelQueueSize`, the capacity of the channel's buffer. -/
def resourceChannelQueueSize : Nat := 10

/-- The constant `ResourceQueryParam`. -/
def ResourceQueryParam : String := "resource"

/-- The method `jsonRead`, called with the description "review". -/
def jsonRead {S : Sig} (D : Packages S) (r : HttpRequest) (description : String) :
    Except String AdmissionReview :=
  match r.body with
  | .error err => .error ("error reading " ++ description ++ " request: " ++ err)
  | .ok body =>
    match D.Decode body with
    | .error err => .error ("Unable to decode " ++ description ++ " request: " ++ err)
    | .ok review => .ok review

/-- The method `appendAndWriteAdmissionResponse`: the review it hands to `jsonWrite`. -/
def appendAndWriteAdmissionResponse (review : AdmissionReview) (allowed : Bool)
    (message : String) : AdmissionReview :=
  { review with Response := some { Allowed := allowed, Message := message } }

/-- How a call of `RecordResourceCoverage` ends. -/
inductive HandlerResult (S : Sig) where
  /-- The handler read a field of a nil `review.Request`. -/
  | nilDereference : HandlerResult S
  /-- The handler returned: the recorder it leaves and the review it wrote. -/
  | wrote : APICoverageRecorder S → AdmissionReview → HandlerResult S

/-- The recorder a call of the handler leaves, when it returns. -/
def HandlerResult.recorder? {S : Sig} : HandlerResult S → Option (APICoverageRecorder S)
  | .nilDereference => none
  | .wrote a _ => some a

/-- The review a call of the handler wrote, when it returns. -/
def HandlerResult.written? {S : Sig} : HandlerResult S → Option AdmissionReview
  | .nilDereference => none
  | .wrote _ review => some review

/-- The admission response a call of the handler wrote, when it wrote one. -/
def HandlerResult.response? {S : Sig} (res : HandlerResult S) : Option AdmissionResponse :=
  match res.written? with
  | some review => review.Response
  | none => none

/-- The channel a call of the handler leaves, when it returns. -/
def HandlerResult.channel? {S : Sig} (res : HandlerResult S) :
    Option (List resourceChannelMsg) :=
  match res.recorder? with
  | some a => some a.resourceChannel
  | none => none

/-- The method `RecordResourceCoverage`. The send `a.resourceChannel <- msg` appends the
message to the list of pending messages; on a full buffer the handler is parked until the
worker receives and then goes on to write the same response. -/
def RecordResourceCoverage {S : Sig} (D : Packages S) (a : APICoverageRecorder S)
    (r : HttpRequest) : HandlerResult S :=
  match jsonRead D r "review" with
  | .error _ =>
    .wrote a (appendAndWriteAdmissionResponse ⟨none, none⟩ false "Admission Denied")
  | .ok review =>
    match review.Request with
    | none => .nilDereference
    | some request =>
      let gvk : GroupVersionKind :=
        { Group := request.Kind.Group, Version := request.Kind.Version,
          Kind := request.Kind.Kind }
      let raw := request.Raw
      match GoMap.get? a.ResourceMap gvk with
      | none => .wrote a (appendAndWriteAdmissionResponse review true "Welcome Aboard")
      | some _ =>
        .wrote
          { a with resourceChannel :=
              a.resourceChannel ++ [{ resourceGVK := gvk, rawResourceValue := raw }] }
          (appendAndWriteAdmissionResponse review true "Welcome Aboard")

/-- Whether reading and decoding the review of a request succeeds. -/
def decoded {S : Sig} (D : Packages S) (r : HttpRequest) : Bool :=
  match jsonRead D r "review" with
  | .ok _ => true
  | .error _ => false

/-- The response of the handler, as a function of whether the review decoded. -/
def admissionAnswer (decodedOk : Bool) : AdmissionResponse :=
  if decodedOk then { Allowed := true, Message := "Welcome Aboard" }
  else { Allowed := false, Message := "Admission Denied" }

/-- How one iteration of the loop of `updateResourceCoverageTree` ends. -/
inductive WorkerResult (S : Sig) where
  /-- The channel is empty: the receive blocks. -/
  | waiting : WorkerResult S
  /-- No type is registered for the key: `reflect.New` is called on a nil type. -/
  | nilType : WorkerResult S
  /-- The iteration ran to its end or to its `continue`. -/
  | next : APICoverageRecorder S → WorkerResult S

/-- One iteration of the loop of `updateResourceCoverageTree`. -/
def updateResourceCoverageTreeStep {S : Sig} (D : Packages S) (a : APICoverageRecorder S) :
    WorkerResult S :=
  match a.resourceChannel with
  | [] => .waiting
  | channelMsg :: pending =>
    match GoMap.get? a.ResourceMap channelMsg.resourceGVK with
    | none => .nilType
    | some resourceType =>
      match D.Unmarshal resourceType channelMsg.rawResourceValue with
      | none => .next { a with resourceChannel := pending }
      | some resource =>
        let resourceTree :=
          (GoMap.get? a.ResourceForest.TopLevelTrees channelMsg.resourceGVK.Kind).getD D.ZeroTree
        .next
          { a with
            resourceChannel := pending
            ResourceForest :=
              { a.ResourceForest with
                Nodes := D.UpdateCoverage resourceTree resource a.ResourceForest.Nodes } }

/-- The method `updateResourceCoverageTree`, for a number of iterations of its loop: it stops
early only where the loop itself stops, on an empty channel or a nil type. -/
def updateResourceCoverageTree {S : Sig} (D : Packages S) :
    Nat → APICoverageRecorder S → WorkerResult S
  | 0, a => .next a
  | n + 1, a =>
    match updateResourceCoverageTreeStep D a with
    | .next a' => updateResourceCoverageTree D n a'
    | stopped => stopped

/-- Modelled from the spec: the method `ResourceForest.AddResourceTree` of package
`resourcetree`, which builds the tree of a type and stores it in `TopLevelTrees` under the
name it is given. -/
def AddResourceTree {S : Sig} (D : Packages S) (f : ResourceForest S) (name : String)
    (resourceType : S.Ty) : ResourceForest S :=
  { TopLevelTrees := GoMap.set f.TopLevelTrees name (D.NewTree name resourceType f.Nodes).1
    Nodes := (D.NewTree name resourceType f.Nodes).2 }

/-- Modelled from the spec: the method `IgnoredFields.ReadFromFile` of package
`coveragecalculator`, which loads the set of ignored field paths from a file. The argument
`file` is what reading and parsing the file gives. A load failure returns the error and
leaves the set as it was, which at start-up is the empty set. -/
def IgnoredFields.ReadFromFile (ig : IgnoredFields) (file : Except String IgnoredFields) :
    IgnoredFields × Option String :=
  match file with
  | .ok loaded => (loaded, none)
  | .error err => (ig, some err)

/-- The method `Init`. The argument `readFromFile` is what reading and parsing the file of
ignored fields gives; the error of `ReadFromFile` is logged and nothing else. The worker
started by `go a.updateResourceCoverageTree()` takes its steps from the recorder returned
here. -/
def Init {S : Sig} (D : Packages S) (readFromFile : Except String IgnoredFields)
    (a : APICoverageRecorder S) : APICoverageRecorder S :=
  { a with
    ResourceForest :=
      a.ResourceMap.foldl (fun f e => AddResourceTree D f e.1.Kind e.2) a.ResourceForest
    ignoredFields := (IgnoredFields.ReadFromFile a.ignoredFields readFromFile).1
    resourceChannel := [] }

/-- The method `getCoverage`. -/
def getCoverage {S : Sig} (D : Packages S) (a : APICoverageRecorder S) (kind : String) :
    CoverageValues × List S.TypeCoverage :=
  let tree := (GoMap.get? a.ResourceForest.TopLevelTrees kind).getD D.ZeroTree
  let typeCoverage :=
    D.BuildCoverageData tree a.ResourceForest.Nodes a.NodeRules a.FieldRules a.ignoredFields
  (D.CalculateTypeCoverage typeCoverage, typeCoverage)

/-- The method `GetResourceCoverage`: the text it writes. -/
def GetResourceCoverage {S : Sig} (D : Packages S) (a : APICoverageRecorder S)
    (r : HttpRequest) : String :=
  let resource := r.queryGet ResourceQueryParam
  match GoMap.get? a.ResourceForest.TopLevelTrees resource with
  | none => "Resource information not found for resource: " ++ resource
  | some _ =>
    match D.GetHTMLDisplay (getCoverage D a resource).2 (getCoverage D a resource).1 with
    | .error err => "Error generating html file " ++ err
    | .ok htmlData => htmlData

/-- The method `GetTotalCoverage`: the value it hands to `jsonWrite`. -/
def GetTotalCoverage {S : Sig} (D : Packages S) (a : APICoverageRecorder S) : CoverageValues :=
  a.ResourceMap.foldl
    (fun totalCoverage e => totalCoverage.Accumulate (getCoverage D a e.1.Kind).1)
    CoverageValues.zero

/-- The loop of `GetResourceCoveragePercentages` over the entries of `ResourceMap`. -/
def percentagesLoop {S : Sig} (D : Packages S) (a : APICoverageRecorder S)
    (entries : List (GroupVersionKind × S.Ty)) (init : GoMap String ℚ × CoverageValues) :
    GoMap String ℚ × CoverageValues :=
  entries.foldl
    (fun st e =>
      (GoMap.set st.1 e.1.Kind (getCoverage D a e.1.Kind).1.PercentCoverage,
        st.2.Accumulate (getCoverage D a e.1.Kind).1))
    init

/-- The method `GetResourceCoveragePercentages`: the value it hands to `jsonWrite`. -/
def GetResourceCoveragePercentages {S : Sig} (D : Packages S) (a : APICoverageRecorder S) :
    CoveragePercentages :=
  let st := percentagesLoop D a a.ResourceMap ([], CoverageValues.zero)
  { ResourceCoverages := GoMap.set st.1 "Overall" st.2.PercentCoverage }

/-! ## The client -/

/-- The function `getFailedResourceCoverages` of the client, over `common.ResourceMap`. -/
def getFailedResourceCoverages {Ty : Type} (ResourceMap : GoMap GroupVersionKind Ty) :
    CoveragePercentages :=
  { ResourceCoverages :=
      GoMap.set
        (ResourceMap.foldl (fun percentCoverages e => GoMap.set percentCoverages e.1.Kind 0)
          ([] : GoMap String ℚ))
        "Overall" 0 }

/-- The flags of the client and the outcomes of the calls its `main` makes outside the
program: the file system, the cluster and the webhook service. An error is `some` of its
text. -/
structure ClientWorld (Ty : Type) where
  /-- The flag `build_failed`. -/
  buildFailedFlag : Bool
  /-- The flag `webhook-uri`. -/
  webhookURIFlag : String
  /-- The variable `common.ResourceMap`. -/
  ResourceMap : GoMap GroupVersionKind Ty
  /-- The result of `prow.GetLocalArtifactsDir()`. -/
  artifactsDir : String
  /-- Whether `os.Stat(artifactsDir)` reports that the directory does not exist. -/
  statNotExist : Bool
  /-- The error of `os.MkdirAll(artifactsDir, 0777)`. -/
  MkdirAll : Option String
  /-- The function `path.Join` on two elements. -/
  Join : String → String → String
  /-- The function `strings.ToLower`. -/
  ToLower : String → String
  /-- The error of `kube.BuildKubeClient()`. -/
  BuildKubeClient : Option String
  /-- The result of `tools.GetWebhookServiceURI` on the client built. -/
  GetWebhookServiceURI : Except String String
  /-- The error of `tools.GetAndWriteResourceCoverage(webhookURI, gvk, outputPath)`. -/
  GetAndWriteResourceCoverage : String → GroupVersionKind → String → Option String
  /-- The error of `tools.GetAndWriteTotalCoverage(webhookURI, outputPath)`. -/
  GetAndWriteTotalCoverage : String → String → Option String
  /-- The result of `tools.GetResourcePercentages(webhookURI)`. -/
  GetResourcePercentages : String → Except String CoveragePercentages
  /-- The error of `tools.WriteResourcePercentages(outputPath, coverage)`. -/
  WriteResourcePercentages : String → CoveragePercentages → Option String

/-- The method `GroupVersionKind.String`, which `%v` prints. -/
def GroupVersionKind.String (gvk : GroupVersionKind) : String :=
  gvk.Group ++ "/" ++ gvk.Version ++ ", Kind=" ++ gvk.Kind

/-- The calls of the client's `main` that act outside the program, and the lines it logs. -/
inductive ClientCall where
  | MkdirAll (dir : String)
  | CleanupJunitFiles (dir : String)
  | BuildKubeClient
  | GetWebhookServiceURI
  | GetAndWriteResourceCoverage (webhookURI : String) (gvk : GroupVersionKind)
      (outputPath : String)
  | GetAndWriteTotalCoverage (webhookURI : String) (outputPath : String)
  | GetResourcePercentages (webhookURI : String)
  | WriteResourcePercentages (outputPath : String) (coverage : CoveragePercentages)
  | Printf (line : String)

/-- Whether a call goes over the network, to the cluster or to the webhook service. -/
def ClientCall.contactsService : ClientCall → Bool
  | .MkdirAll _ => false
  | .CleanupJunitFiles _ => false
  | .BuildKubeClient => true
  | .GetWebhookServiceURI => true
  | .GetAndWriteResourceCoverage _ _ _ => true
  | .GetAndWriteTotalCoverage _ _ => true
  | .GetResourcePercentages _ => true
  | .WriteResourcePercentages _ _ => false
  | .Printf _ => false

/-- A run of the client: the calls it made, in order, and the line of the `log.Fatalf` it
ended in, if it did. -/
structure ClientRun where
  calls : List ClientCall
  fatal : Option String

namespace Client

/-- The function `getWebhookURI`: the calls it makes and the URI it returns, or the line of
the `log.Fatalf` it ends in. -/
def getWebhookURI {Ty : Type} (W : ClientWorld Ty) : List ClientCall × Except String String :=
  if W.webhookURIFlag ≠ "" then ([], .ok W.webhookURIFlag)
  else
    let autodetect := ClientCall.Printf
      "Autodetecting webhook-uri from service k8s-api-coverage/apicoverage-webhook"
    match W.BuildKubeClient with
    | some err => ([autodetect, .BuildKubeClient], .error ("Failed to get client set: " ++ err))
    | none =>
      match W.GetWebhookServiceURI with
      | .error err =>
        ([autodetect, .BuildKubeClient, .Printf "Built kubernetes client",
            .GetWebhookServiceURI],
          .error ("Error retrieving Service IP: " ++ err))
      | .ok webhookURI =>
        ([autodetect, .BuildKubeClient, .Printf "Built kubernetes client",
            .GetWebhookServiceURI],
          .ok webhookURI)

/-- The path of the report of a kind in the loop of `main`. -/
def resourceOutputPath {Ty : Type} (W : ClientWorld Ty) (gvk : GroupVersionKind) : String :=
  W.Join W.artifactsDir
    (W.ToLower gvk.Group ++ "_" ++ W.ToLower gvk.Version ++ "_" ++ W.ToLower gvk.Kind ++ ".html")

/-- The body of the loop of `main` over `common.ResourceMap`, for one key: the fetch of the
report of the kind and the line logged on its outcome. -/
def fetchResource {Ty : Type} (W : ClientWorld Ty) (webhookURI : String)
    (gvk : GroupVersionKind) : List ClientCall :=
  [ClientCall.GetAndWriteResourceCoverage webhookURI gvk (resourceOutputPath W gvk),
   match W.GetAndWriteResourceCoverage webhookURI gvk (resourceOutputPath W gvk) with
   | some err =>
     ClientCall.Printf
       ("Failed retrieving resource coverage for resource " ++ gvk.String ++ ": " ++ err ++ " ")
   | none =>
     ClientCall.Printf
       ("Wrote resource coverage for resource " ++ gvk.String ++ " to "
         ++ resourceOutputPath W gvk)]

/-- The function `main` of the client from the call of `getWebhookURI` on, in normal mode. -/
def mainNormal {Ty : Type} (W : ClientWorld Ty) : ClientRun :=
  match getWebhookURI W with
  | (calls, .error line) => { calls := calls, fatal := some line }
  | (calls, .ok webhookURI) =>
    let fetches := W.ResourceMap.foldl (fun cs e => cs ++ fetchResource W webhookURI e.1)
      (calls ++ [ClientCall.Printf ("Using webhook-uri " ++ webhookURI)])
    let total := fetches ++
      [ClientCall.GetAndWriteTotalCoverage webhookURI (W.Join W.artifactsDir "totalcoverage.html")]
    match W.GetAndWriteTotalCoverage webhookURI (W.Join W.artifactsDir "totalcoverage.html") with
    | some err => { calls := total, fatal := some ("total coverage retrieval failed: " ++ err) }
    | none =>
      let percentages := total ++
        [ClientCall.Printf
            ("Wrote resource coverage percentages to "
              ++ W.Join W.artifactsDir "totalcoverage.html"),
          ClientCall.GetResourcePercentages webhookURI]
      match W.GetResourcePercentages webhookURI with
      | .error err =>
        { calls := percentages
          fatal := some ("Failed retrieving resource coverage percentages: " ++ err) }
      | .ok coverage =>
        let written := percentages ++
          [ClientCall.WriteResourcePercentages (W.Join W.artifactsDir "junit_bazel.xml")
            coverage]
        match W.WriteResourcePercentages (W.Join W.artifactsDir "junit_bazel.xml") coverage with
        | some err =>
          { calls := written
            fatal := some ("Failed writing resource coverage percentages: " ++ err) }
        | none =>
          { calls := written ++
              [ClientCall.Printf
                ("Wrote resource coverage percentages to "
                  ++ W.Join W.artifactsDir "junit_bazel.xml")]
            fatal := none }

/-- The function `main` of the client in build-failed mode, once the artifacts directory is
there and cleaned. -/
def mainBuildFailed {Ty : Type} (W : ClientWorld Ty) : ClientRun :=
  let outputPath := W.Join W.artifactsDir "junit_bazel.xml"
  let coverage := getFailedResourceCoverages W.ResourceMap
  let written :=
    [ClientCall.Printf "Build failed, writing failed resource coverages",
     ClientCall.WriteResourcePercentages outputPath coverage]
  match W.WriteResourcePercentages outputPath coverage with
  | some err =>
    { calls := written
      fatal := some ("Failed writing resource coverage percentages: " ++ err) }
  | none =>
    { calls := written ++
        [ClientCall.Printf ("Wrote failed resource coverage percentages to " ++ outputPath)]
      fatal := none }

/-- The function `main` of the client. -/
def main {Ty : Type} (W : ClientWorld Ty) : ClientRun :=
  let mkdir : List ClientCall :=
    if W.statNotExist then [ClientCall.MkdirAll W.artifactsDir] else []
  match (if W.statNotExist then W.MkdirAll else none) with
  | some err => { calls := mkdir, fatal := some ("Failed to create directory: " ++ err) }
  | none =>
    let setup := mkdir ++ [ClientCall.CleanupJunitFiles W.artifactsDir]
    if W.buildFailedFlag then
      { calls := setup ++ (mainBuildFailed W).calls, fatal := (mainBuildFailed W).fatal }
    else
      { calls := setup ++ (mainNormal W).calls, fatal := (mainNormal W).fatal }

end Client

/-! ## The webhook rules -/

/-- The type `admissionregistration/v1beta1.OperationType`, a string. -/
abbrev OperationType := String

/-- The constant `admissionregistrationv1beta1.Create`. -/
def OperationType.Create : OperationType := "CREATE"

/-- The constant `admissionregistrationv1beta1.Update`. -/
def OperationType.Update : OperationType := "UPDATE"

/-- The constant `admissionregistrationv1beta1.Delete`. -/
def OperationType.Delete : OperationType := "DELETE"

/-- The constant `admissionregistrationv1beta1.Connect`. -/
def OperationType.Connect : OperationType := "CONNECT"

/-- The type `admissionregistrationv1beta1.RuleWithOperations`, with the fields of its `Rule`
that `getValidationRules` sets. -/
structure RuleWithOperations where
  Operations : List OperationType
  APIGroups : List String
  APIVersions : List String
  Resources : List String
deriving DecidableEq, Repr

/-- The rule that the body of the loop of `getValidationRules` appends for one kind. -/
def validationRule {S : Sig} (D : Packages S) (gvk : GroupVersionKind) : RuleWithOperations :=
  let resourcePlural := D.ToLower (D.Pluralize gvk.Kind)
  { Operations := [OperationType.Create, OperationType.Update, OperationType.Connect]
    APIGroups := [gvk.Group]
    APIVersions := [gvk.Version]
    Resources := [resourcePlural, resourcePlural ++ "/*"] }

/-- The method `getValidationRules`. -/
def getValidationRules {S : Sig} (D : Packages S) (gvks : List GroupVersionKind) :
    List RuleWithOperations :=
  gvks.foldl (fun rules gvk => rules ++ [validationRule D gvk]) []

/-! ## The tools -/

/-- The fields of `corev1.ServicePort` that `GetWebhookServiceURI` reads. -/
structure ServicePort where
  Port : Int
  NodePort : Int
deriving DecidableEq, Repr

/-- The fields of `corev1.Service` that `GetWebhookServiceURI` reads: `Spec.Type` (here
`SpecType`), `Spec.Ports` and the `IP` of each entry of `Status.LoadBalancer.Ingress`. -/
structure Service where
  SpecType : String
  Ports : List ServicePort
  Ingress : List String
deriving DecidableEq, Repr

/-- The fields of `corev1.Node` that `GetWebhookServiceURI` reads: `Name` and the `Address`
of each entry of `Status.Addresses`. -/
structure Node where
  Name : String
  Addresses : List String
deriving DecidableEq, Repr

/-- The constant `corev1.ServiceTypeLoadBalancer`. -/
def ServiceTypeLoadBalancer : String := "LoadBalancer"

/-- The constant `corev1.ServiceTypeNodePort`. -/
def ServiceTypeNodePort : String := "NodePort"

/-- The outcomes of the two calls `GetWebhookServiceURI` makes to the cluster. -/
structure KubeWorld where
  /-- The result of `Services(namespace).Get(serviceName, ...)`. -/
  GetService : Except String Service
  /-- The result of `Nodes().List(...)`: the items of the list. -/
  ListNodes : Except String (List Node)

/-- How a call of `GetWebhookServiceURI` ends. -/
inductive URIResult where
  /-- The call indexed the empty `svc.Spec.Ports`. -/
  | indexOutOfRange : URIResult
  /-- The call returned a string and an error, `none` for nil. -/
  | returned (uri : String) (err : Option String) : URIResult
deriving DecidableEq

namespace Tools

/-- The call `fmt.Sprint` on an `int32`: its decimal digits. -/
def Sprint (n : Int) : String := toString n

/-- The function `GetWebhookServiceURI`. -/
def GetWebhookServiceURI (K : KubeWorld) (namespaceName serviceName : String) : URIResult :=
  match K.GetService with
  | .error err =>
    .returned ""
      (some ("Could not retrieve service " ++ namespaceName ++ "/" ++ serviceName ++ ": " ++ err))
  | .ok svc =>
    if svc.SpecType = ServiceTypeLoadBalancer then
      match svc.Ingress with
      | [] =>
        .returned ""
          (some ("Found zero Ingress instances for service " ++ namespaceName ++ "/"
            ++ serviceName ++ " of type " ++ svc.SpecType))
      | ingress :: _ =>
        match svc.Ports with
        | [] => .indexOutOfRange
        | port :: _ => .returned ("https://" ++ ingress ++ ":" ++ Sprint port.Port) none
    else if svc.SpecType = ServiceTypeNodePort then
      match K.ListNodes with
      | .error err =>
        .returned ""
          (some ("Could not list nodes to get IP for service " ++ namespaceName ++ "/"
            ++ serviceName ++ " of type " ++ svc.SpecType ++ ": " ++ err))
      | .ok [] =>
        .returned ""
          (some ("Found zero nodes to get IP for service " ++ namespaceName ++ "/"
            ++ serviceName ++ " of type " ++ svc.SpecType))
      | .ok (node :: _) =>
        match node.Addresses with
        | [] =>
          .returned ""
            (some ("Found zero address for node " ++ node.Name ++ " to get IP for service "
              ++ namespaceName ++ "/" ++ serviceName ++ " of type " ++ svc.SpecType))
        | address :: _ =>
          match svc.Ports with
          | [] => .indexOutOfRange
          | port :: _ => .returned ("https://" ++ address ++ ":" ++ Sprint port.NodePort) none
    else
      .returned ""
        (some ("Unable to get IP for service " ++ namespaceName ++ "/" ++ serviceName
          ++ " of unsupported type " ++ svc.SpecType))

/-- What a call of `WriteResourcePercentages` does: the file it writes, with its data and
its permission bits, and the error it returns. -/
structure WriteOutcome where
  file : String
  data : String
  perm : Nat
  err : Option String
deriving DecidableEq

/-- The function `WriteResourcePercentages`. The argument `GetCoveragePercentageXMLDisplay`
is the function of that name of package `view`, which returns a string and an error; the
argument `WriteFile` is the error of `ioutil.WriteFile` on a file, its data and its
permission bits. The value of `errors.Wrap` on the error of the rendering is dropped. -/
def WriteResourcePercentages
    (GetCoveragePercentageXMLDisplay : CoveragePercentages → String × Option String)
    (WriteFile : String → String → Nat → Option String) (outputFile : String)
    (coveragePercentages : CoveragePercentages) : WriteOutcome :=
  let htmlData := (GetCoveragePercentageXMLDisplay coveragePercentages).1
  { file := outputFile, data := htmlData, perm := 0o400
    err := WriteFile outputFile htmlData 0o400 }

/-- Whether the rest of a name, after "junit_", matches `.*\.xml`: the text ".xml" comes
after characters none of which is a newline. -/
def matchAfterJunit : List Char → Bool
  | [] => false
  | c :: cs =>
    (['.', 'x', 'm', 'l'].isPrefixOf (c :: cs)) || (c != '\n' && matchAfterJunit cs)

/-- The call `jUnitFileRegexExpr.MatchString` on the characters of a name: the pattern
`junit_.*\.xml` matches somewhere in the name. -/
def matchJunit : List Char → Bool
  | [] => false
  | c :: cs =>
    (['j', 'u', 'n', 'i', 't', '_'].isPrefixOf (c :: cs) && matchAfterJunit ((c :: cs).drop 6))
      || matchJunit cs

/-- The call `jUnitFileRegexExpr.MatchString(name)`. -/
def jUnitFileRegexExpr (name : String) : Bool := matchJunit name.data

/-- The entries of a directory, each directory with its own entries. -/
inductive Listing where
  | nil : Listing
  | file (name : String) (content : Bytes) (rest : Listing) : Listing
  | dir (name : String) (entries : Listing) (rest : Listing) : Listing
deriving DecidableEq, Repr

/-- The regular files under a directory, at every depth: the path of each, as the names from
the directory down, and its content. -/
def Listing.files (path : List String) : Listing → List (List String × Bytes)
  | .nil => []
  | .file name content rest => (path ++ [name], content) :: Listing.files path rest
  | .dir name entries rest =>
    Listing.files (path ++ [name]) entries ++ Listing.files path rest

/-- The directories under a directory, at every depth. -/
def Listing.dirs (path : List String) : Listing → List (List String)
  | .nil => []
  | .file _ _ rest => Listing.dirs path rest
  | .dir name entries rest =>
    (path ++ [name]) :: (Listing.dirs (path ++ [name]) entries ++ Listing.dirs path rest)

/-- The function `CleanupJunitFiles` on the entries of the artifacts directory, which
`filepath.Walk` visits at every depth: an entry that is not a directory and whose name matches
is removed, every other entry is left. The calls of the walk and of `os.Remove` succeed. -/
def CleanupJunitFiles : Listing → Listing
  | .nil => .nil
  | .file name content rest =>
    if jUnitFileRegexExpr name then CleanupJunitFiles rest
    else .file name content (CleanupJunitFiles rest)
  | .dir name entries rest => .dir name (CleanupJunitFiles entries) (CleanupJunitFiles rest)

/-- The name of a file listed by `Listing.files`: the last element of its path. -/
def fileName (f : List String × Bytes) : String := f.1.getLast?.getD ""

end Tools

/-- Whether a call of the client writes a report into the artifacts directory. -/
def ClientCall.writesReport : ClientCall → Bool
  | .GetAndWriteResourceCoverage _ _ _ => true
  | .GetAndWriteTotalCoverage _ _ => true
  | .WriteResourcePercentages _ _ => true
  | _ => false

/-! ## Running the webhook -/

/-- The names in `APICoverageWebhook` that `registerWebhook` reads. -/
structure APICoverageWebhook where
  WebhookName : String
  ServiceName : String
  DeploymentName : String

/-- The outcomes of what `Run` does outside the program: building the server, the race of
the registration delay against the stop channel, the two calls to the cluster, and the race
of the stop channel against a failure of the server. An error is `some` of its text. -/
structure WebhookWorld where
  /-- The error of `acw.getWebhookServer(handler)`. -/
  getWebhookServer : Option String
  /-- Whether `time.After(acw.RegistrationDelay)` fires before the stop channel. -/
  delayBeforeStop : Bool
  /-- The error of `Deployments(namespace).Get(acw.DeploymentName, ...)`. -/
  GetDeployment : Option String
  /-- The error of `ValidatingWebhookConfigurations().Create(webhook)`. -/
  CreateWebhook : List RuleWithOperations → Option String
  /-- Whether the stop channel fires before `ListenAndServeTLS` returns. -/
  stopBeforeBootstrapError : Bool
  /-- The error of `server.Close()`. -/
  Close : Option String
  /-- The error of `BuildWebhookConfiguration`, which ends in a fatal log. -/
  BuildWebhookConfiguration : Option String

/-- The calls of `Run` that act outside the program. -/
inductive WebhookCall where
  | getWebhookServer
  | GetDeployment (namespaceName name : String)
  | CreateWebhook (name : String) (rules : List RuleWithOperations)
  | ListenAndServeTLS
  | Close
deriving DecidableEq

/-- A run of `Run` or of the server's `main`: the calls made, in order, and the error
returned (for `main`, the line of the fatal log it ended in). -/
structure WebhookRun where
  calls : List WebhookCall
  err : Option String

/-- The method `registerWebhook`: the calls it makes and the error it returns. -/
def registerWebhook (W : WebhookWorld) (acw : APICoverageWebhook)
    (rules : List RuleWithOperations) (namespaceName : String) :
    List WebhookCall × Option String :=
  match W.GetDeployment with
  | some err =>
    ([.GetDeployment namespaceName acw.DeploymentName],
      some ("Error retrieving Deployment Extension object: " ++ err))
  | none =>
    match W.CreateWebhook rules with
    | some err =>
      ([.GetDeployment namespaceName acw.DeploymentName, .CreateWebhook acw.WebhookName rules],
        some ("Error creating ValidatingWebhookConfigurations object: " ++ err))
    | none =>
      ([.GetDeployment namespaceName acw.DeploymentName, .CreateWebhook acw.WebhookName rules],
        none)

/-- The method `Run`. -/
def Run {S : Sig} (D : Packages S) (W : WebhookWorld) (acw : APICoverageWebhook)
    (resources : List GroupVersionKind) (namespaceName : String) : WebhookRun :=
  match W.getWebhookServer with
  | some err =>
    { calls := [.getWebhookServer]
      err := some ("Webhook server object creation failed: " ++ err) }
  | none =>
    if W.delayBeforeStop then
      let rules := getValidationRules D resources
      match registerWebhook W acw rules namespaceName with
      | (calls, some err) =>
        { calls := .getWebhookServer :: calls
          err := some ("Webhook registration failed: " ++ err) }
      | (calls, none) =>
        if W.stopBeforeBootstrapError then
          { calls := .getWebhookServer :: calls ++ [.ListenAndServeTLS, .Close]
            err := W.Close }
        else
          { calls := .getWebhookServer :: calls ++ [.ListenAndServeTLS]
            err := some "webhook server bootstrap failed" }
    else
      { calls := [.getWebhookServer], err := none }

/-- The constant `common.WebhookNamespace`. -/
def WebhookNamespace : String := "k8s-api-coverage"

/-- The constant `common.CommonComponentName`. -/
def CommonComponentName : String := "apicoverage-webhook"

/-- The constant `webhookDomain`. -/
def webhookDomain : String := "sigs.k8s.io"

namespace Server

/-- The function `main` of the server, from `BuildWebhookConfiguration` on: the calls of
`Run` and the line of the fatal log it ends in, if it does. The recorder it builds and
initialises takes no part in what `Run` returns. -/
def main {S : Sig} (D : Packages S) (W : WebhookWorld)
    (ResourceMap : GoMap GroupVersionKind S.Ty) : WebhookRun :=
  match W.BuildWebhookConfiguration with
  | some err => { calls := [], err := some err }
  | none =>
    let webhookConf : APICoverageWebhook :=
      { WebhookName := CommonComponentName ++ "." ++ webhookDomain
        ServiceName := CommonComponentName
        DeploymentName := CommonComponentName }
    let resources := GoMap.keys ResourceMap
    match (Run D W webhookConf resources WebhookNamespace).err with
    | some err =>
      { calls := (Run D W webhookConf resources WebhookNamespace).calls
        err := some ("Encountered error setting up Webhook: " ++ err) }
    | none =>
      { calls := (Run D W webhookConf resources WebhookNamespace).calls, err := none }

end Server

/-! ## The states the recorder reaches -/

/-- The recorders reached from a recorder by calls of `RecordResourceCoverage` that return
and by iterations of the loop of `updateResourceCoverageTree`. -/
inductive Reachable {S : Sig} (D : Packages S) (start : APICoverageRecorder S) :
    APICoverageRecorder S → Prop where
  | start : Reachable D start start
  | record (a a' : APICoverageRecorder S) (r : HttpRequest) (written : AdmissionReview) :
      Reachable D start a → RecordResourceCoverage D a r = .wrote a' written →
      Reachable D start a'
  | work (a a' : APICoverageRecorder S) :
      Reachable D start a → updateResourceCoverageTreeStep D a = .next a' →
      Reachable D start a'

/-! ## A small instance of the packages

Types are numbers of leaf fields, a tree is a name with its number of fields, the nodes hold
the number of covered fields per tree name, and a resource value is the number of fields it
populates. Bodies are decoded byte by byte: the first byte is the operation, the second
picks the kind, the rest is the raw object. -/

/-- The types of the instance. -/
@[reducible] def exampleSig : Sig :=
  { Ty := Nat
    Tree := String × Nat
    Nodes := GoMap String Nat
    Val := Nat
    TypeCoverage := Nat × Nat
    NodeRules := Unit
    FieldRules := Unit
    DisplayRules := Unit }

/-- The decoder of the instance. -/
def exampleDecode : Bytes → Except String AdmissionReview
  | [] => .error "EOF"
  | [_] => .ok { Request := none, Response := none }
  | op :: kind :: raw =>
    .ok
      { Request := some
          { Kind :=
              { Group := "", Version := "v1", Kind := if kind = 1 then "Pod" else "Gadget" }
            Operation := if op = 1 then "CREATE" else if op = 2 then "UPDATE" else "DELETE"
            Raw := raw }
        Response := none }

/-- The unmarshaller of the instance: the first byte is the number of populated fields. -/
def exampleUnmarshal (ty : Nat) : Bytes → Option Nat
  | [] => none
  | n :: _ => if n ≤ ty then some n else none

/-- The coverage values of a list of (covered, total) pairs. -/
def exampleCalculate (tcs : List (Nat × Nat)) : CoverageValues :=
  { TotalFields := (tcs.map Prod.snd).sum
    CoveredFields := (tcs.map Prod.fst).sum
    PercentCoverage := 100 * (((tcs.map Prod.fst).sum : Nat) : ℚ) / (((tcs.map Prod.snd).sum : Nat) : ℚ) }

/-- The operations of the instance. -/
def examplePackages : Packages exampleSig :=
  { Decode := exampleDecode
    Unmarshal := exampleUnmarshal
    Unmarshal_nil := fun _ => rfl
    ZeroTree := ("", 0)
    NewTree := fun name ty nodes => ((name, ty), nodes)
    UpdateCoverage := fun tree v nodes =>
      GoMap.set nodes tree.1 (max ((GoMap.get? nodes tree.1).getD 0) v)
    BuildCoverageData := fun tree nodes _ _ _ => [((GoMap.get? nodes tree.1).getD 0, tree.2)]
    CalculateTypeCoverage := exampleCalculate
    GetHTMLDisplay := fun tcs _ =>
      .ok ("<html>" ++ String.join (tcs.map (fun _ => "<tr/>")) ++ "</html>")
    Pluralize := fun s => s ++ "s"
    ToLower := fun s => String.mk (s.data.map Char.toLower) }

/-- A recorder of the instance after `Init`, with the kind v1/Pod registered and three of its
four fields covered. -/
def exampleRecorder : APICoverageRecorder exampleSig :=
  { ResourceForest := { TopLevelTrees := [("Pod", ("Pod", 4))], Nodes := [("Pod", 3)] }
    ResourceMap := [({ Group := "", Version := "v1", Kind := "Pod" }, 4)]
    NodeRules := ()
    FieldRules := ()
    DisplayRules := ()
    resourceChannel := []
    ignoredFields := [] }

/-- A create review for v1/Pod whose object populates four fields. -/
def exampleCreate : HttpRequest := { body := .ok [1, 1, 4], query := [] }

/-- A create review for v1/Gadget, a kind the example recorder has not registered. -/
def exampleUnregistered : HttpRequest := { body := .ok [1, 0, 4], query := [] }

/-- A delete review for v1/Pod. -/
def exampleDelete : HttpRequest := { body := .ok [3, 1, 4], query := [] }

/-- The instance with a renderer whose template file is missing. -/
def exampleNoTemplate : Packages exampleSig :=
  { examplePackages with
    GetHTMLDisplay := fun _ _ => .error "open type_coverage.html: no such file or directory" }

/-- The example recorder with two messages in the channel: the object of the first does not
unmarshal into the type of v1/Pod, which has four fields. -/
def exampleQueued : APICoverageRecorder exampleSig :=
  { exampleRecorder with
    resourceChannel :=
      [{ resourceGVK := { Group := "", Version := "v1", Kind := "Pod" }, rawResourceValue := [9] },
       { resourceGVK := { Group := "", Version := "v1", Kind := "Pod" }, rawResourceValue := [2] }] }

/-- A recorder with two kinds, at (covered, total) = (1, 2) and (3, 4). -/
def exampleTwoKinds : APICoverageRecorder exampleSig :=
  { ResourceForest :=
      { TopLevelTrees := [("Pod", ("Pod", 2)), ("Deployment", ("Deployment", 4))]
        Nodes := [("Pod", 1), ("Deployment", 3)] }
    ResourceMap :=
      [({ Group := "", Version := "v1", Kind := "Pod" }, 2),
       ({ Group := "apps", Version := "v1", Kind := "Deployment" }, 4)]
    NodeRules := ()
    FieldRules := ()
    DisplayRules := ()
    resourceChannel := []
    ignoredFields := [] }

/-- A recorder in which a registered kind is itself named "Overall", at (1, 2), next to
v1/Pod at (3, 4). -/
def exampleOverallKind : APICoverageRecorder exampleSig :=
  { ResourceForest :=
      { TopLevelTrees := [("Overall", ("Overall", 2)), ("Pod", ("Pod", 4))]
        Nodes := [("Overall", 1), ("Pod", 3)] }
    ResourceMap :=
      [({ Group := "example.dev", Version := "v1", Kind := "Overall" }, 2),
       ({ Group := "", Version := "v1", Kind := "Pod" }, 4)]
    NodeRules := ()
    FieldRules := ()
    DisplayRules := ()
    resourceChannel := []
    ignoredFields := [] }

/-- A recorder before `Init` whose `ResourceMap` registers the kind ListOptions under two
group versions, as the schemes of apps/v1 and batch/v1 both do. -/
def exampleSameKind : APICoverageRecorder exampleSig :=
  { ResourceForest := { TopLevelTrees := [], Nodes := [] }
    ResourceMap :=
      [({ Group := "apps", Version := "v1", Kind := "ListOptions" }, 3),
       ({ Group := "batch", Version := "v1", Kind := "ListOptions" }, 3)]
    NodeRules := ()
    FieldRules := ()
    DisplayRules := ()
    resourceChannel := []
    ignoredFields := [] }

/-- A review that decodes without a request. -/
def exampleNoRequest : HttpRequest := { body := .ok [1], query := [] }

/-- A recorder before `Init`, as the server builds it, with the kind v1/Pod to register. -/
def exampleFresh : APICoverageRecorder exampleSig :=
  { ResourceForest := { TopLevelTrees := [], Nodes := [] }
    ResourceMap := [({ Group := "", Version := "v1", Kind := "Pod" }, 4)]
    NodeRules := ()
    FieldRules := ()
    DisplayRules := ()
    resourceChannel := []
    ignoredFields := [] }

/-- A cluster in which the deployment of the webhook cannot be read. -/
def exampleNoDeployment : WebhookWorld :=
  { getWebhookServer := none
    delayBeforeStop := true
    GetDeployment := some "deployments.apps \"apicoverage-webhook\" not found"
    CreateWebhook := fun _ => none
    stopBeforeBootstrapError := true
    Close := none
    BuildWebhookConfiguration := none }

/-- The example recorder after `Init` and one create review for v1/Pod. -/
def exampleEnqueued : APICoverageRecorder exampleSig :=
  { Init examplePackages (.ok []) exampleFresh with
    resourceChannel :=
      [{ resourceGVK := { Group := "", Version := "v1", Kind := "Pod" },
         rawResourceValue := [4] }] }

/-- A run of the client in normal mode in which every report of a kind and the total
coverage are fetched, and the fetch of the percentages fails. -/
def examplePercentagesDown : ClientWorld Nat :=
  { buildFailedFlag := false
    webhookURIFlag := "https://10.0.0.1:443"
    ResourceMap := [({ Group := "", Version := "v1", Kind := "Pod" }, 4)]
    artifactsDir := "artifacts"
    statNotExist := false
    MkdirAll := none
    Join := fun dir file => dir ++ "/" ++ file
    ToLower := fun s => s
    BuildKubeClient := none
    GetWebhookServiceURI := .ok "https://10.0.0.1:443"
    GetAndWriteResourceCoverage := fun _ _ _ => none
    GetAndWriteTotalCoverage := fun _ _ => none
    GetResourcePercentages := fun _ => .error "unexpected EOF"
    WriteResourcePercentages := fun _ _ => none }

/-- The same run, except that the report of the kind is not fetched and the percentages
are. -/
def exampleKindDown : ClientWorld Nat :=
  { examplePercentagesDown with
    GetAndWriteResourceCoverage := fun _ _ _ => some "Invalid HTTP Status received"
    GetResourcePercentages := fun _ => .ok { ResourceCoverages := [("Overall", 0)] } }

/-- A cluster whose webhook service is a load balancer with one ingress. -/
def exampleLoadBalancer : KubeWorld :=
  { GetService := .ok
      { SpecType := "LoadBalancer"
        Ports := [{ Port := 443, NodePort := 31443 }]
        Ingress := ["35.1.2.3"] }
    ListNodes := .ok [] }

/-- A cluster whose webhook service is a load balancer with one ingress and no service
port. -/
def exampleLoadBalancerNoPorts : KubeWorld :=
  { GetService := .ok { SpecType := "LoadBalancer", Ports := [], Ingress := ["35.1.2.3"] }
    ListNodes := .ok [] }

/-- A cluster whose webhook service is of type NodePort without a service port, and whose
first node has an address. -/
def exampleNodePortNoPorts : KubeWorld :=
  { GetService := .ok { SpecType := "NodePort", Ports := [], Ingress := [] }
    ListNodes := .ok [{ Name := "node-1", Addresses := ["10.128.0.2"] }] }

/-- An artifacts directory with reports of an earlier run at two depths. -/
def exampleArtifacts : Tools.Listing :=
  .file "junit_bazel.xml" [1]
    (.file "totalcoverage.html" [2]
      (.dir "junit_old.xml" (.file "notes.txt" [3] (.file "junit_01.xml" [4] .nil)) .nil))

/-- A query for the coverage of the kind Pod. -/
def examplePodQuery : HttpRequest := { body := .ok [], query := [("resource", "Pod")] }

/-! # Theorems -/

/-! ## Lemmas on Go maps -/

namespace GoMap

variable {K V : Type} [DecidableEq K]

theorem get?_eq_none_iff (m : GoMap K V) (k : K) : get? m k = none ↔ k ∉ keys m := by
  induction m with
  | nil => simp [get?, keys]
  | cons e rest ih =>
    obtain ⟨k', v⟩ := e
    by_cases hk : k' = k
    · simp [get?, keys, hk]
    · have hk' : ¬ k = k' := fun h => hk h.symm
      simpa [get?, keys, hk, hk'] using ih

theorem get?_isSome_iff (m : GoMap K V) (k : K) : (get? m k).isSome = true ↔ k ∈ keys m := by
  rw [← not_iff_not, ← get?_eq_none_iff]
  cases get? m k <;> simp

theorem mem_keys_set (m : GoMap K V) (k : K) (v : V) (x : K) :
    x ∈ keys (set m k v) ↔ x = k ∨ x ∈ keys m := by
  induction m with
  | nil => simp [set, keys]
  | cons e rest ih =>
    obtain ⟨k', v'⟩ := e
    by_cases hk : k' = k
    · subst hk
      simp [set, keys]
    · have ih' : x ∈ List.map Prod.fst (set rest k v) ↔ x = k ∨ x ∈ List.map Prod.fst rest := ih
      simp only [set, hk, if_false, keys, List.map_cons, List.mem_cons, ih']
      tauto

theorem get?_set (m : GoMap K V) (k : K) (v : V) (x : K) :
    get? (set m k v) x = if k = x then some v else get? m x := by
  induction m with
  | nil => simp [set, get?]
  | cons e rest ih =>
    obtain ⟨k', v'⟩ := e
    by_cases hk : k' = k
    · subst hk
      by_cases hx : k' = x <;> simp [set, get?, hx]
    · by_cases hx : k' = x
      · have hkx : ¬ k = x := fun h => hk (hx.trans h.symm)
        subst hx
        simp [set, get?, hk, hkx]
      · simp [set, get?, hk, hx, ih]

theorem WF_set (m : GoMap K V) (k : K) (v : V) (h : WF m) : WF (set m k v) := by
  induction m with
  | nil => simp [set, WF, keys]
  | cons e rest ih =>
    obtain ⟨k', v'⟩ := e
    have hcons : k' ∉ keys rest ∧ WF rest := by
      simpa [WF, keys, List.nodup_cons] using h
    by_cases hk : k' = k
    · subst hk
      simpa [set, WF, keys, List.nodup_cons] using h
    · have hnot : k' ∉ keys (set rest k v) := by
        rw [mem_keys_set]
        rintro (h1 | h2)
        · exact hk h1
        · exact hcons.1 h2
      have hrest : (keys (set rest k v)).Nodup := ih hcons.2
      simp only [set, hk, if_false, WF, keys, List.map_cons, List.nodup_cons]
      exact ⟨hnot, hrest⟩

theorem get?_of_mem (m : GoMap K V) (h : WF m) (e : K × V) (he : e ∈ m) :
    get? m e.1 = some e.2 := by
  induction m with
  | nil => cases he
  | cons e' rest ih =>
    obtain ⟨k', v'⟩ := e'
    have hcons : k' ∉ keys rest ∧ WF rest := by
      simpa [WF, keys, List.nodup_cons] using h
    rcases List.mem_cons.1 he with heq | hrest
    · subst heq
      simp [get?]
    · have hne : ¬ k' = e.1 := by
        intro hk
        exact hcons.1 (hk ▸ List.mem_map.2 ⟨e, hrest, rfl⟩)
      simp only [get?, hne, if_false]
      exact ih hcons.2 hrest

/-- A loop that assigns to each visited key a value that depends on the key alone. -/
theorem foldl_set_spec {E : Type} (key : E → K) (val : K → V) (l : List E) (m0 : GoMap K V) :
    (∀ x, x ∈ keys (l.foldl (fun m e => set m (key e) (val (key e))) m0)
        ↔ x ∈ keys m0 ∨ x ∈ l.map key) ∧
    (∀ x, get? (l.foldl (fun m e => set m (key e) (val (key e))) m0) x
        = if x ∈ l.map key then some (val x) else get? m0 x) ∧
    (WF m0 → WF (l.foldl (fun m e => set m (key e) (val (key e))) m0)) := by
  induction l generalizing m0 with
  | nil => simp
  | cons e rest ih =>
    obtain ⟨hkeys, hget, hwf⟩ := ih (set m0 (key e) (val (key e)))
    refine ⟨?_, ?_, ?_⟩
    · intro x
      simp only [List.foldl_cons, hkeys, mem_keys_set, List.map_cons, List.mem_cons]
      tauto
    · intro x
      simp only [List.foldl_cons, hget, get?_set, List.map_cons, List.mem_cons]
      by_cases hx : x ∈ rest.map key
      · simp [hx]
      · by_cases hxe : key e = x
        · subst hxe
          simp
        · have hxe' : ¬ x = key e := fun h => hxe h.symm
          simp [hx, hxe, hxe']
    · intro h0
      exact hwf (WF_set m0 _ _ h0)

end GoMap

/-! ## Lemmas on accumulated coverage -/

theorem foldl_Accumulate (cs : List CoverageValues) (init : CoverageValues)
    (hinit : init.PercentCoverage
      = 100 * ((init.CoveredFields : Nat) : ℚ) / ((init.TotalFields : Nat) : ℚ)) :
    (cs.foldl CoverageValues.Accumulate init).TotalFields
        = init.TotalFields + (cs.map CoverageValues.TotalFields).sum ∧
    (cs.foldl CoverageValues.Accumulate init).CoveredFields
        = init.CoveredFields + (cs.map CoverageValues.CoveredFields).sum ∧
    (cs.foldl CoverageValues.Accumulate init).PercentCoverage
        = 100 * (((cs.foldl CoverageValues.Accumulate init).CoveredFields : Nat) : ℚ)
          / (((cs.foldl CoverageValues.Accumulate init).TotalFields : Nat) : ℚ) := by
  induction cs generalizing init with
  | nil => simpa using hinit
  | cons c rest ih =>
    obtain ⟨h1, h2, h3⟩ := ih (init.Accumulate c) rfl
    refine ⟨?_, ?_, h3⟩
    · rw [List.foldl_cons, h1]
      simp only [CoverageValues.Accumulate, List.map_cons, List.sum_cons]
      omega
    · rw [List.foldl_cons, h2]
      simp only [CoverageValues.Accumulate, List.map_cons, List.sum_cons]
      omega

theorem GetTotalCoverage_eq_foldl {S : Sig} (D : Packages S) (a : APICoverageRecorder S) :
    GetTotalCoverage D a =
      ((GoMap.keys a.ResourceMap).map (fun k => (getCoverage D a k.Kind).1)).foldl
        CoverageValues.Accumulate CoverageValues.zero := by
  unfold GetTotalCoverage GoMap.keys
  rw [List.foldl_map, List.foldl_map]

theorem percentagesLoop_fst {S : Sig} (D : Packages S) (a : APICoverageRecorder S)
    (entries : List (GroupVersionKind × S.Ty)) (init : GoMap String ℚ × CoverageValues) :
    (percentagesLoop D a entries init).1 =
      entries.foldl
        (fun m e => GoMap.set m e.1.Kind (getCoverage D a e.1.Kind).1.PercentCoverage) init.1 := by
  unfold percentagesLoop
  induction entries generalizing init with
  | nil => rfl
  | cons e rest ih => simp only [List.foldl_cons]; rw [ih]

theorem percentagesLoop_snd {S : Sig} (D : Packages S) (a : APICoverageRecorder S)
    (entries : List (GroupVersionKind × S.Ty)) (init : GoMap String ℚ × CoverageValues) :
    (percentagesLoop D a entries init).2 =
      entries.foldl
        (fun totalCoverage e => totalCoverage.Accumulate (getCoverage D a e.1.Kind).1)
        init.2 := by
  unfold percentagesLoop
  induction entries generalizing init with
  | nil => rfl
  | cons e rest ih => simp only [List.foldl_cons]; rw [ih]

theorem Overall_eq_total {S : Sig} (D : Packages S) (a : APICoverageRecorder S) :
    GoMap.get? (GetResourceCoveragePercentages D a).ResourceCoverages "Overall"
      = some (GetTotalCoverage D a).PercentCoverage := by
  unfold GetResourceCoveragePercentages
  simp only [GoMap.get?_set, if_true, percentagesLoop_snd]
  rfl

theorem GetTotalCoverage_sums {S : Sig} (D : Packages S) (a : APICoverageRecorder S) :
    (GetTotalCoverage D a).PercentCoverage =
      100 * ((((GoMap.keys a.ResourceMap).map
            (fun k => (getCoverage D a k.Kind).1.CoveredFields)).sum : Nat) : ℚ)
        / ((((GoMap.keys a.ResourceMap).map
            (fun k => (getCoverage D a k.Kind).1.TotalFields)).sum : Nat) : ℚ) := by
  rw [GetTotalCoverage_eq_foldl]
  obtain ⟨h1, h2, h3⟩ := foldl_Accumulate
    ((GoMap.keys a.ResourceMap).map (fun k => (getCoverage D a k.Kind).1))
    CoverageValues.zero (by simp [CoverageValues.zero])
  rw [h3, h1, h2]
  simp [CoverageValues.zero, List.map_map, Function.comp_def]

/-! ## Lemmas on the webhook rules -/

theorem foldl_append_singleton {α β : Type} (f : α → β) (l : List α) (init : List β) :
    l.foldl (fun acc x => acc ++ [f x]) init = init ++ l.map f := by
  induction l generalizing init with
  | nil => simp
  | cons x rest ih => simp [List.foldl, ih]

theorem getValidationRules_eq_map {S : Sig} (D : Packages S) (gvks : List GroupVersionKind) :
    getValidationRules D gvks = gvks.map (validationRule D) := by
  unfold getValidationRules
  rw [foldl_append_singleton]
  rfl

theorem delete_not_mem_validationRule {S : Sig} (D : Packages S) (gvk : GroupVersionKind) :
    OperationType.Delete ∉ (validationRule D gvk).Operations := by
  simp only [validationRule]
  decide

/-! ## The admission handler -/

theorem RecordResourceCoverage_decoded {S : Sig} (D : Packages S) (a : APICoverageRecorder S)
    (r : HttpRequest) (review : AdmissionReview) (request : AdmissionRequest)
    (hdec : jsonRead D r "review" = .ok review) (hreq : review.Request = some request) :
    RecordResourceCoverage D a r =
      match GoMap.get? a.ResourceMap request.Kind with
      | none => .wrote a (appendAndWriteAdmissionResponse review true "Welcome Aboard")
      | some _ =>
        .wrote
          { a with resourceChannel :=
              a.resourceChannel ++
                [{ resourceGVK := request.Kind, rawResourceValue := request.Raw }] }
          (appendAndWriteAdmissionResponse review true "Welcome Aboard") := by
  unfold RecordResourceCoverage
  simp only [hdec, hreq]

theorem RecordResourceCoverage_response {S : Sig} (D : Packages S) (a : APICoverageRecorder S)
    (r : HttpRequest)
    (h : ∀ review, jsonRead D r "review" = .ok review → review.Request ≠ none) :
    (RecordResourceCoverage D a r).response? = some (admissionAnswer (decoded D r)) := by
  cases hj : jsonRead D r "review" with
  | error e =>
    unfold RecordResourceCoverage decoded
    rw [hj]
    rfl
  | ok review =>
    cases hq : review.Request with
    | none => exact absurd hq (h review hj)
    | some request =>
      rw [RecordResourceCoverage_decoded D a r review request hj hq]
      unfold decoded
      rw [hj]
      cases GoMap.get? a.ResourceMap request.Kind <;> rfl

/-- C1. For every recorder and every request whose review fails to decode or decodes with a
request present, `RecordResourceCoverage` returns after writing a response; the response is
allowed exactly when the review decoded, it is "Admission Denied" with `Allowed = false` on a
decoding failure, and it is the same response for every other recorder (whatever its coverage
store and its registered kinds) and a function of the decoding outcome alone. -/
theorem RecordResourceCoverage_allowed_iff_decoded {S : Sig} (D : Packages S)
    (a : APICoverageRecorder S) (r : HttpRequest)
    (h : ∀ review, jsonRead D r "review" = .ok review → review.Request ≠ none) :
    ∃ response,
      (RecordResourceCoverage D a r).response? = some response ∧
      (response.Allowed = true ↔ ∃ review, jsonRead D r "review" = .ok review) ∧
      ((∀ review, jsonRead D r "review" ≠ .ok review) →
        response = { Allowed := false, Message := "Admission Denied" }) ∧
      (∀ b : APICoverageRecorder S, (RecordResourceCoverage D b r).response? = some response) ∧
      response = admissionAnswer (decoded D r) := by
  refine ⟨admissionAnswer (decoded D r), RecordResourceCoverage_response D a r h, ?_, ?_,
    fun b => RecordResourceCoverage_response D b r h, rfl⟩
  · unfold decoded admissionAnswer
    cases jsonRead D r "review" <;> simp
  · intro hno
    unfold decoded admissionAnswer
    cases hj : jsonRead D r "review" with
    | error e => simp
    | ok review => exact absurd hj (hno review)

/-- Witness of C1 on a create review for a registered kind. -/
theorem RecordResourceCoverage_allowed_iff_decoded_witness :
    (∀ review, jsonRead examplePackages exampleCreate "review" = .ok review →
      review.Request ≠ none) ∧
    ∃ response,
      (RecordResourceCoverage examplePackages exampleRecorder exampleCreate).response?
        = some response ∧
      (response.Allowed = true ↔
        ∃ review, jsonRead examplePackages exampleCreate "review" = .ok review) ∧
      ((∀ review, jsonRead examplePackages exampleCreate "review" ≠ .ok review) →
        response = { Allowed := false, Message := "Admission Denied" }) ∧
      (∀ b : APICoverageRecorder exampleSig,
        (RecordResourceCoverage examplePackages b exampleCreate).response? = some response) ∧
      response = admissionAnswer (decoded examplePackages exampleCreate) :=
  have h : ∀ review, jsonRead examplePackages exampleCreate "review" = .ok review →
      review.Request ≠ none := by
    intro review hr
    simp only [jsonRead, exampleCreate, examplePackages, exampleDecode, Except.ok.injEq] at hr
    subst hr
    simp
  ⟨h, RecordResourceCoverage_allowed_iff_decoded examplePackages exampleRecorder exampleCreate h⟩

/-- C2. For every decoded review whose group, version and kind are not a key of
`ResourceMap`, `RecordResourceCoverage` answers `Allowed = true` and returns the recorder
as it was: the channel holds the same messages, and `getCoverage` of every kind, the total
coverage and the percentage map are the same after the request as before. -/
theorem RecordResourceCoverage_unregistered_unchanged {S : Sig} (D : Packages S)
    (a : APICoverageRecorder S) (r : HttpRequest) (review : AdmissionReview)
    (request : AdmissionRequest)
    (hdec : jsonRead D r "review" = .ok review) (hreq : review.Request = some request)
    (hun : request.Kind ∉ GoMap.keys a.ResourceMap) :
    (RecordResourceCoverage D a r).response?
        = some { Allowed := true, Message := "Welcome Aboard" } ∧
    ∃ a', (RecordResourceCoverage D a r).recorder? = some a' ∧
      a'.resourceChannel = a.resourceChannel ∧
      (∀ kind, getCoverage D a' kind = getCoverage D a kind) ∧
      GetTotalCoverage D a' = GetTotalCoverage D a ∧
      (GetResourceCoveragePercentages D a').ResourceCoverages
        = (GetResourceCoveragePercentages D a).ResourceCoverages := by
  have hnone : GoMap.get? a.ResourceMap request.Kind = none :=
    (GoMap.get?_eq_none_iff _ _).2 hun
  rw [RecordResourceCoverage_decoded D a r review request hdec hreq, hnone]
  exact ⟨rfl, a, rfl, rfl, fun _ => rfl, rfl, rfl⟩

/-- Witness of C2 on a create review for the unregistered kind v1/Gadget. -/
theorem RecordResourceCoverage_unregistered_unchanged_witness :
    (RecordResourceCoverage examplePackages exampleRecorder exampleUnregistered).response?
        = some { Allowed := true, Message := "Welcome Aboard" } ∧
    ∃ a', (RecordResourceCoverage examplePackages exampleRecorder exampleUnregistered).recorder?
        = some a' ∧
      a'.resourceChannel = exampleRecorder.resourceChannel ∧
      (∀ kind, getCoverage examplePackages a' kind
        = getCoverage examplePackages exampleRecorder kind) ∧
      GetTotalCoverage examplePackages a' = GetTotalCoverage examplePackages exampleRecorder ∧
      (GetResourceCoveragePercentages examplePackages a').ResourceCoverages
        = (GetResourceCoveragePercentages examplePackages exampleRecorder).ResourceCoverages :=
  RecordResourceCoverage_unregistered_unchanged examplePackages exampleRecorder
    exampleUnregistered
    { Request := some
        { Kind := { Group := "", Version := "v1", Kind := "Gadget" }
          Operation := "CREATE", Raw := [4] }
      Response := none }
    { Kind := { Group := "", Version := "v1", Kind := "Gadget" }
      Operation := "CREATE", Raw := [4] }
    rfl rfl (by decide)

/-- Counterexample to C3 as stated: the delete review for the registered kind v1/Pod decodes
with a request present, and `RecordResourceCoverage` sends its message to the channel, which
was empty. -/
theorem RecordResourceCoverage_delete_enqueued :
    jsonRead examplePackages exampleDelete "review" =
      .ok { Request := some
              { Kind := { Group := "", Version := "v1", Kind := "Pod" }
                Operation := "DELETE", Raw := [4] }
            Response := none } ∧
    exampleRecorder.resourceChannel = [] ∧
    (RecordResourceCoverage examplePackages exampleRecorder exampleDelete).channel? =
      some [{ resourceGVK := { Group := "", Version := "v1", Kind := "Pod" }
              rawResourceValue := [4] }] :=
  ⟨rfl, rfl, rfl⟩

/-- C3, amended. Delete reviews are kept away by the registration, not by the handler: no
rule that `getValidationRules` returns lists Delete among its operations. The handler does
not look at the operation: for a decoded delete review it leaves the channel as it was when
the kind is not registered, and appends the message of the review when the kind is
registered, as it does for any other operation. -/
theorem delete_excluded_by_rules_not_by_handler {S : Sig} (D : Packages S)
    (gvks : List GroupVersionKind) (a : APICoverageRecorder S) (r : HttpRequest)
    (review : AdmissionReview) (request : AdmissionRequest)
    (hdec : jsonRead D r "review" = .ok review) (hreq : review.Request = some request)
    (_hop : request.Operation = "DELETE") :
    (∀ rule ∈ getValidationRules D gvks, OperationType.Delete ∉ rule.Operations) ∧
    (request.Kind ∉ GoMap.keys a.ResourceMap →
      (RecordResourceCoverage D a r).channel? = some a.resourceChannel) ∧
    (request.Kind ∈ GoMap.keys a.ResourceMap →
      (RecordResourceCoverage D a r).channel? =
        some (a.resourceChannel ++
          [{ resourceGVK := request.Kind, rawResourceValue := request.Raw }])) := by
  refine ⟨?_, ?_, ?_⟩
  · intro rule hrule
    rw [getValidationRules_eq_map, List.mem_map] at hrule
    obtain ⟨gvk, _, rfl⟩ := hrule
    exact delete_not_mem_validationRule D gvk
  · intro hun
    rw [RecordResourceCoverage_decoded D a r review request hdec hreq,
      (GoMap.get?_eq_none_iff _ _).2 hun]
    rfl
  · intro hin
    rw [RecordResourceCoverage_decoded D a r review request hdec hreq]
    have hsome := (GoMap.get?_isSome_iff a.ResourceMap request.Kind).2 hin
    cases hg : GoMap.get? a.ResourceMap request.Kind with
    | none => rw [hg] at hsome; exact absurd hsome (by simp)
    | some ty => rfl

/-- Witness of the amended C3 on the delete review for v1/Pod. -/
theorem delete_excluded_by_rules_not_by_handler_witness :
    (∀ rule ∈ getValidationRules examplePackages [{ Group := "", Version := "v1", Kind := "Pod" }],
      OperationType.Delete ∉ rule.Operations) ∧
    (({ Group := "", Version := "v1", Kind := "Pod" } : GroupVersionKind)
        ∉ GoMap.keys exampleRecorder.ResourceMap →
      (RecordResourceCoverage examplePackages exampleRecorder exampleDelete).channel?
        = some exampleRecorder.resourceChannel) ∧
    (({ Group := "", Version := "v1", Kind := "Pod" } : GroupVersionKind)
        ∈ GoMap.keys exampleRecorder.ResourceMap →
      (RecordResourceCoverage examplePackages exampleRecorder exampleDelete).channel? =
        some (exampleRecorder.resourceChannel ++
          [{ resourceGVK := { Group := "", Version := "v1", Kind := "Pod" }
             rawResourceValue := [4] }])) :=
  delete_excluded_by_rules_not_by_handler examplePackages
    [{ Group := "", Version := "v1", Kind := "Pod" }] exampleRecorder exampleDelete
    { Request := some
        { Kind := { Group := "", Version := "v1", Kind := "Pod" }
          Operation := "DELETE", Raw := [4] }
      Response := none }
    { Kind := { Group := "", Version := "v1", Kind := "Pod" }, Operation := "DELETE", Raw := [4] }
    rfl rfl rfl

/-! ## The worker -/

theorem updateResourceCoverageTreeStep_continue {S : Sig} (D : Packages S)
    (a : APICoverageRecorder S) (channelMsg : resourceChannelMsg)
    (pending : List resourceChannelMsg) (resourceType : S.Ty)
    (hq : a.resourceChannel = channelMsg :: pending)
    (hty : GoMap.get? a.ResourceMap channelMsg.resourceGVK = some resourceType)
    (hfail : D.Unmarshal resourceType channelMsg.rawResourceValue = none) :
    updateResourceCoverageTreeStep D a = .next { a with resourceChannel := pending } := by
  unfold updateResourceCoverageTreeStep
  simp only [hq, hty, hfail]

/-- C4. When the raw body of the message at the head of the channel is empty or does not
unmarshal into the type registered for its key, one iteration of `updateResourceCoverageTree`
takes that message off the channel and changes nothing else: the forest, its nodes and hence
every coverage value are the same, the remaining messages are the same in the same order,
and the loop goes on with them. -/
theorem updateResourceCoverageTree_skips_undecodable {S : Sig} (D : Packages S)
    (a : APICoverageRecorder S) (channelMsg : resourceChannelMsg)
    (pending : List resourceChannelMsg) (resourceType : S.Ty)
    (hq : a.resourceChannel = channelMsg :: pending)
    (hty : GoMap.get? a.ResourceMap channelMsg.resourceGVK = some resourceType)
    (hfail : channelMsg.rawResourceValue = [] ∨
      D.Unmarshal resourceType channelMsg.rawResourceValue = none) :
    ∃ a', updateResourceCoverageTreeStep D a = .next a' ∧
      a'.resourceChannel = pending ∧
      a'.ResourceForest = a.ResourceForest ∧
      a'.ResourceMap = a.ResourceMap ∧
      a'.ignoredFields = a.ignoredFields ∧
      (∀ kind, getCoverage D a' kind = getCoverage D a kind) ∧
      (∀ n, updateResourceCoverageTree D (n + 1) a = updateResourceCoverageTree D n a') := by
  have hnone : D.Unmarshal resourceType channelMsg.rawResourceValue = none := by
    rcases hfail with hnil | hnone
    · rw [hnil]; exact D.Unmarshal_nil resourceType
    · exact hnone
  have hstep := updateResourceCoverageTreeStep_continue D a channelMsg pending resourceType
    hq hty hnone
  refine ⟨{ a with resourceChannel := pending }, hstep, rfl, rfl, rfl, rfl, fun _ => rfl, ?_⟩
  intro n
  simp only [updateResourceCoverageTree, hstep]

/-- Witness of C4 on the example channel, whose first message does not unmarshal. -/
theorem updateResourceCoverageTree_skips_undecodable_witness :
    ∃ a', updateResourceCoverageTreeStep examplePackages exampleQueued = .next a' ∧
      a'.resourceChannel =
        [{ resourceGVK := { Group := "", Version := "v1", Kind := "Pod" },
           rawResourceValue := [2] }] ∧
      a'.ResourceForest = exampleQueued.ResourceForest ∧
      a'.ResourceMap = exampleQueued.ResourceMap ∧
      a'.ignoredFields = exampleQueued.ignoredFields ∧
      (∀ kind, getCoverage examplePackages a' kind
        = getCoverage examplePackages exampleQueued kind) ∧
      (∀ n, updateResourceCoverageTree examplePackages (n + 1) exampleQueued
        = updateResourceCoverageTree examplePackages n a') :=
  updateResourceCoverageTree_skips_undecodable examplePackages exampleQueued
    { resourceGVK := { Group := "", Version := "v1", Kind := "Pod" }, rawResourceValue := [9] }
    [{ resourceGVK := { Group := "", Version := "v1", Kind := "Pod" }, rawResourceValue := [2] }]
    4 rfl rfl (Or.inr (by decide))

/-! ## The query handlers -/

/-- C5. For every recorder, the percentage of `GetTotalCoverage` is 100 × (sum of covered) /
(sum of total), the sums taken over the set of keys of `ResourceMap`, one term per key, and
the "Overall" entry of `GetResourceCoveragePercentages` is that same value. It is not the
mean of the percentages of the kinds: with two kinds at (1, 2) and (3, 4), whose own
percentages are 50 and 75, the overall is 100 × 4 / 6, which is neither 75 nor their mean. -/
theorem GetTotalCoverage_weighted_aggregate {S : Sig} (D : Packages S)
    (a : APICoverageRecorder S) (hwf : GoMap.WF a.ResourceMap) :
    (GetTotalCoverage D a).PercentCoverage =
      100 * ((Finset.sum (GoMap.keys a.ResourceMap).toFinset
              (fun k => (getCoverage D a k.Kind).1.CoveredFields) : Nat) : ℚ)
        / ((Finset.sum (GoMap.keys a.ResourceMap).toFinset
              (fun k => (getCoverage D a k.Kind).1.TotalFields) : Nat) : ℚ) ∧
    GoMap.get? (GetResourceCoveragePercentages D a).ResourceCoverages "Overall"
      = some (GetTotalCoverage D a).PercentCoverage ∧
    (getCoverage examplePackages exampleTwoKinds "Pod").1 = ⟨2, 1, 50⟩ ∧
    (getCoverage examplePackages exampleTwoKinds "Deployment").1 = ⟨4, 3, 75⟩ ∧
    (GetTotalCoverage examplePackages exampleTwoKinds).PercentCoverage = 100 * 4 / 6 ∧
    (GetTotalCoverage examplePackages exampleTwoKinds).PercentCoverage ≠ 75 ∧
    (GetTotalCoverage examplePackages exampleTwoKinds).PercentCoverage ≠ (50 + 75) / 2 := by
  have hex : (GetTotalCoverage examplePackages exampleTwoKinds).PercentCoverage = 100 * 4 / 6 := by
    rw [GetTotalCoverage_sums]
    simp [GoMap.keys, exampleTwoKinds, getCoverage, examplePackages, exampleCalculate, GoMap.get?]
  refine ⟨?_, Overall_eq_total D a, ?_, ?_, hex, ?_, ?_⟩
  · rw [GetTotalCoverage_sums, List.sum_toFinset _ hwf, List.sum_toFinset _ hwf]
  · simp [exampleTwoKinds, getCoverage, examplePackages, exampleCalculate, GoMap.get?]
    norm_num
  · simp [exampleTwoKinds, getCoverage, examplePackages, exampleCalculate, GoMap.get?]
    norm_num
  · rw [hex]; norm_num
  · rw [hex]; norm_num

/-- Witness of C5 on the recorder with two kinds at (1, 2) and (3, 4). -/
theorem GetTotalCoverage_weighted_aggregate_witness :
    GoMap.WF exampleTwoKinds.ResourceMap ∧
    (GetTotalCoverage examplePackages exampleTwoKinds).PercentCoverage =
      100 * ((Finset.sum (GoMap.keys exampleTwoKinds.ResourceMap).toFinset
              (fun k => (getCoverage examplePackages exampleTwoKinds k.Kind).1.CoveredFields)
                : Nat) : ℚ)
        / ((Finset.sum (GoMap.keys exampleTwoKinds.ResourceMap).toFinset
              (fun k => (getCoverage examplePackages exampleTwoKinds k.Kind).1.TotalFields)
                : Nat) : ℚ) :=
  have hwf : GoMap.WF exampleTwoKinds.ResourceMap := by
    unfold GoMap.WF GoMap.keys exampleTwoKinds
    decide
  ⟨hwf, (GetTotalCoverage_weighted_aggregate examplePackages exampleTwoKinds hwf).1⟩

theorem GetResourceCoveragePercentages_eq_foldl {S : Sig} (D : Packages S)
    (a : APICoverageRecorder S) :
    (GetResourceCoveragePercentages D a).ResourceCoverages =
      GoMap.set
        (a.ResourceMap.foldl
          (fun m e => GoMap.set m e.1.Kind (getCoverage D a e.1.Kind).1.PercentCoverage) [])
        "Overall" (GetTotalCoverage D a).PercentCoverage := by
  unfold GetResourceCoveragePercentages
  simp only [percentagesLoop_fst, percentagesLoop_snd]
  rfl

theorem mem_map_Kind_iff {Ty : Type} (m : GoMap GroupVersionKind Ty) (name : String) :
    name ∈ m.map (fun e => e.1.Kind) ↔ ∃ k ∈ GoMap.keys m, k.Kind = name := by
  simp only [GoMap.keys, List.mem_map]
  constructor
  · rintro ⟨e, he, rfl⟩
    exact ⟨e.1, ⟨e, he, rfl⟩, rfl⟩
  · rintro ⟨k, ⟨e, he, rfl⟩, rfl⟩
    exact ⟨e, he, rfl⟩

/-- Counterexample to C7 as stated: in the recorder that registers a kind named "Overall",
`getCoverage` of that kind has percentage 50, and the value written under its name is the
accumulated total, 100 × 4 / 6. -/
theorem GetResourceCoveragePercentages_kind_named_Overall :
    ({ Group := "example.dev", Version := "v1", Kind := "Overall" } : GroupVersionKind)
      ∈ GoMap.keys exampleOverallKind.ResourceMap ∧
    (getCoverage examplePackages exampleOverallKind "Overall").1.PercentCoverage = 50 ∧
    GoMap.get? (GetResourceCoveragePercentages examplePackages exampleOverallKind).ResourceCoverages
      "Overall" = some (100 * 4 / 6) ∧
    GoMap.get? (GetResourceCoveragePercentages examplePackages exampleOverallKind).ResourceCoverages
      "Overall"
      ≠ some (getCoverage examplePackages exampleOverallKind "Overall").1.PercentCoverage := by
  have h50 : (getCoverage examplePackages exampleOverallKind "Overall").1.PercentCoverage = 50 := by
    simp [exampleOverallKind, getCoverage, examplePackages, exampleCalculate, GoMap.get?]
    norm_num
  have htot : GoMap.get?
      (GetResourceCoveragePercentages examplePackages exampleOverallKind).ResourceCoverages
      "Overall" = some (100 * 4 / 6) := by
    rw [Overall_eq_total, GetTotalCoverage_sums]
    simp [GoMap.keys, exampleOverallKind, getCoverage, examplePackages, exampleCalculate,
      GoMap.get?]
  refine ⟨by decide, h50, htot, ?_⟩
  rw [htot, h50]
  norm_num

/-- C7, amended. For every recorder, the map written by `GetResourceCoveragePercentages` is a
map whose keys are exactly the `Kind` of the keys of `ResourceMap` together with "Overall";
the value under each kind name other than "Overall" is the percentage of `getCoverage` for
that kind, and the value under "Overall" is the percentage of the accumulated total. -/
theorem GetResourceCoveragePercentages_entries {S : Sig} (D : Packages S)
    (a : APICoverageRecorder S) :
    GoMap.WF (GetResourceCoveragePercentages D a).ResourceCoverages ∧
    (∀ name, name ∈ GoMap.keys (GetResourceCoveragePercentages D a).ResourceCoverages ↔
      name = "Overall" ∨ ∃ k ∈ GoMap.keys a.ResourceMap, k.Kind = name) ∧
    (∀ k ∈ GoMap.keys a.ResourceMap, k.Kind ≠ "Overall" →
      GoMap.get? (GetResourceCoveragePercentages D a).ResourceCoverages k.Kind
        = some (getCoverage D a k.Kind).1.PercentCoverage) ∧
    GoMap.get? (GetResourceCoveragePercentages D a).ResourceCoverages "Overall"
      = some (GetTotalCoverage D a).PercentCoverage := by
  obtain ⟨hkeys, hget, hwf⟩ := GoMap.foldl_set_spec
    (fun e : GroupVersionKind × S.Ty => e.1.Kind)
    (fun name => (getCoverage D a name).1.PercentCoverage) a.ResourceMap ([] : GoMap String ℚ)
  refine ⟨?_, ?_, ?_, Overall_eq_total D a⟩
  · rw [GetResourceCoveragePercentages_eq_foldl]
    exact GoMap.WF_set _ _ _ (hwf (by simp [GoMap.WF, GoMap.keys]))
  · intro name
    rw [GetResourceCoveragePercentages_eq_foldl, GoMap.mem_keys_set, hkeys, mem_map_Kind_iff]
    simp [GoMap.keys]
  · intro k hk hne
    rw [GetResourceCoveragePercentages_eq_foldl, GoMap.get?_set, if_neg (Ne.symm hne), hget,
      if_pos ((mem_map_Kind_iff a.ResourceMap k.Kind).2 ⟨k, hk, rfl⟩)]

/-- Counterexample to C9 as stated: "Pod" is a key of `TopLevelTrees`, the renderer returns
an error for its coverage, and `GetResourceCoverage` writes the error text, not a report. -/
theorem GetResourceCoverage_render_error :
    examplePodQuery.queryGet ResourceQueryParam = "Pod" ∧
    "Pod" ∈ GoMap.keys exampleRecorder.ResourceForest.TopLevelTrees ∧
    exampleNoTemplate.GetHTMLDisplay
        (getCoverage exampleNoTemplate exampleRecorder "Pod").2
        (getCoverage exampleNoTemplate exampleRecorder "Pod").1
      = .error "open type_coverage.html: no such file or directory" ∧
    GetResourceCoverage exampleNoTemplate exampleRecorder examplePodQuery
      = "Error generating html file open type_coverage.html: no such file or directory" := by
  refine ⟨by decide, by decide, rfl, ?_⟩
  decide

/-- C9, amended. For every value of the "resource" query parameter that is not a key of
`TopLevelTrees` (the empty string when the parameter is absent), `GetResourceCoverage` writes
exactly "Resource information not found for resource: " followed by that value, whatever the
coverage functions are; for every value that is a key, it writes the report that
`view.GetHTMLDisplay` renders from `getCoverage` of that value, or, when the rendering fails,
"Error generating html file " followed by the error. -/
theorem GetResourceCoverage_written {S : Sig} (D : Packages S) (a : APICoverageRecorder S)
    (r : HttpRequest) :
    ((∀ p ∈ r.query, p.1 ≠ ResourceQueryParam) → r.queryGet ResourceQueryParam = "") ∧
    (r.queryGet ResourceQueryParam ∉ GoMap.keys a.ResourceForest.TopLevelTrees →
      GetResourceCoverage D a r =
        "Resource information not found for resource: " ++ r.queryGet ResourceQueryParam) ∧
    (r.queryGet ResourceQueryParam ∈ GoMap.keys a.ResourceForest.TopLevelTrees →
      (∀ htmlData,
        D.GetHTMLDisplay (getCoverage D a (r.queryGet ResourceQueryParam)).2
            (getCoverage D a (r.queryGet ResourceQueryParam)).1 = .ok htmlData →
          GetResourceCoverage D a r = htmlData) ∧
      (∀ err,
        D.GetHTMLDisplay (getCoverage D a (r.queryGet ResourceQueryParam)).2
            (getCoverage D a (r.queryGet ResourceQueryParam)).1 = .error err →
          GetResourceCoverage D a r = "Error generating html file " ++ err)) := by
  refine ⟨?_, ?_, ?_⟩
  · intro habsent
    unfold HttpRequest.queryGet
    have hnone : r.query.find? (fun p => p.1 == ResourceQueryParam) = none := by
      rw [List.find?_eq_none]
      intro p hp
      simpa using habsent p hp
    rw [hnone]
  · intro hmiss
    unfold GetResourceCoverage
    simp only [(GoMap.get?_eq_none_iff _ _).2 hmiss]
  · intro hkey
    have hsome := (GoMap.get?_isSome_iff a.ResourceForest.TopLevelTrees
      (r.queryGet ResourceQueryParam)).2 hkey
    cases hg : GoMap.get? a.ResourceForest.TopLevelTrees (r.queryGet ResourceQueryParam) with
    | none => rw [hg] at hsome; exact absurd hsome (by simp)
    | some tree =>
      refine ⟨?_, ?_⟩
      · intro htmlData hok
        unfold GetResourceCoverage
        simp only [hg, hok]
      · intro err herr
        unfold GetResourceCoverage
        simp only [hg, herr]

/-- Witness of the amended C9 on the query for Pod, whose report the renderer produces. -/
theorem GetResourceCoverage_written_witness :
    examplePodQuery.queryGet ResourceQueryParam
      ∈ GoMap.keys exampleRecorder.ResourceForest.TopLevelTrees ∧
    examplePackages.GetHTMLDisplay
        (getCoverage examplePackages exampleRecorder
          (examplePodQuery.queryGet ResourceQueryParam)).2
        (getCoverage examplePackages exampleRecorder
          (examplePodQuery.queryGet ResourceQueryParam)).1 = .ok "<html><tr/></html>" ∧
    GetResourceCoverage examplePackages exampleRecorder examplePodQuery
      = "<html><tr/></html>" :=
  have hkey : examplePodQuery.queryGet ResourceQueryParam
      ∈ GoMap.keys exampleRecorder.ResourceForest.TopLevelTrees := by decide
  have hok : examplePackages.GetHTMLDisplay
        (getCoverage examplePackages exampleRecorder
          (examplePodQuery.queryGet ResourceQueryParam)).2
        (getCoverage examplePackages exampleRecorder
          (examplePodQuery.queryGet ResourceQueryParam)).1 = .ok "<html><tr/></html>" := by
    rfl
  ⟨hkey, hok,
    ((GetResourceCoverage_written examplePackages exampleRecorder examplePodQuery).2.2 hkey).1
      "<html><tr/></html>" hok⟩

/-! ## The client -/

theorem getFailedResourceCoverages_entries {Ty : Type}
    (ResourceMap : GoMap GroupVersionKind Ty) :
    GoMap.WF (getFailedResourceCoverages ResourceMap).ResourceCoverages ∧
    (∀ name, name ∈ GoMap.keys (getFailedResourceCoverages ResourceMap).ResourceCoverages ↔
      name = "Overall" ∨ ∃ k ∈ GoMap.keys ResourceMap, k.Kind = name) ∧
    (∀ name, name ∈ GoMap.keys (getFailedResourceCoverages ResourceMap).ResourceCoverages →
      GoMap.get? (getFailedResourceCoverages ResourceMap).ResourceCoverages name = some 0) := by
  obtain ⟨hkeys, hget, hwf⟩ := GoMap.foldl_set_spec
    (fun e : GroupVersionKind × Ty => e.1.Kind) (fun _ => (0 : ℚ)) ResourceMap
    ([] : GoMap String ℚ)
  have hkeys' : ∀ name,
      name ∈ GoMap.keys (getFailedResourceCoverages ResourceMap).ResourceCoverages ↔
        name = "Overall" ∨ ∃ k ∈ GoMap.keys ResourceMap, k.Kind = name := by
    intro name
    unfold getFailedResourceCoverages
    rw [GoMap.mem_keys_set, hkeys, mem_map_Kind_iff]
    simp [GoMap.keys]
  refine ⟨?_, hkeys', ?_⟩
  · unfold getFailedResourceCoverages
    exact GoMap.WF_set _ _ _ (hwf (by simp [GoMap.WF, GoMap.keys]))
  · intro name hname
    have hmem := (hkeys' name).1 hname
    unfold getFailedResourceCoverages
    rw [GoMap.get?_set]
    by_cases ho : "Overall" = name
    · rw [if_pos ho]
    · rw [if_neg ho, hget]
      rcases hmem with h1 | h2
      · exact absurd h1.symm ho
      · rw [if_pos ((mem_map_Kind_iff ResourceMap name).2 h2)]

/-- C8. For every `ResourceMap`, `getFailedResourceCoverages`, a function of `ResourceMap`
alone, returns a map whose keys are exactly the `Kind` of the registered keys together with
"Overall", and every value in it is 0. In build-failed mode `main` makes no call that goes
over the network, and unless it fails to create the artifacts directory it writes that map
to junit_bazel.xml in that directory. -/
theorem getFailedResourceCoverages_all_zero {Ty : Type} (W : ClientWorld Ty) :
    GoMap.WF (getFailedResourceCoverages W.ResourceMap).ResourceCoverages ∧
    (∀ name, name ∈ GoMap.keys (getFailedResourceCoverages W.ResourceMap).ResourceCoverages ↔
      name = "Overall" ∨ ∃ k ∈ GoMap.keys W.ResourceMap, k.Kind = name) ∧
    (∀ name, name ∈ GoMap.keys (getFailedResourceCoverages W.ResourceMap).ResourceCoverages →
      GoMap.get? (getFailedResourceCoverages W.ResourceMap).ResourceCoverages name = some 0) ∧
    (∀ e ∈ (getFailedResourceCoverages W.ResourceMap).ResourceCoverages, e.2 = 0) ∧
    (∀ c ∈ (Client.main { W with buildFailedFlag := true }).calls,
      c.contactsService = false) ∧
    (ClientCall.WriteResourcePercentages (W.Join W.artifactsDir "junit_bazel.xml")
          (getFailedResourceCoverages W.ResourceMap)
        ∈ (Client.main { W with buildFailedFlag := true }).calls ∨
      (W.statNotExist = true ∧ W.MkdirAll ≠ none ∧
        (Client.main { W with buildFailedFlag := true }).fatal ≠ none)) := by
  obtain ⟨hwf, hkeys, hval⟩ := getFailedResourceCoverages_entries W.ResourceMap
  refine ⟨hwf, hkeys, hval, ?_, ?_, ?_⟩
  · intro e he
    have hk : e.1 ∈ GoMap.keys (getFailedResourceCoverages W.ResourceMap).ResourceCoverages :=
      List.mem_map.2 ⟨e, he, rfl⟩
    have h0 := hval e.1 hk
    rw [GoMap.get?_of_mem _ hwf e he] at h0
    exact Option.some.inj h0
  · intro c hc
    unfold Client.main Client.mainBuildFailed at hc
    cases hs : W.statNotExist <;> cases hm : W.MkdirAll <;>
      cases hw : W.WriteResourcePercentages (W.Join W.artifactsDir "junit_bazel.xml")
        (getFailedResourceCoverages W.ResourceMap) <;>
      simp [hs, hm, hw] at hc <;> (try casesm* _ ∨ _) <;> subst_vars <;> rfl
  · unfold Client.main Client.mainBuildFailed
    cases hs : W.statNotExist <;> cases hm : W.MkdirAll <;>
      cases hw : W.WriteResourcePercentages (W.Join W.artifactsDir "junit_bazel.xml")
        (getFailedResourceCoverages W.ResourceMap) <;>
      simp [hs, hm, hw]

/-! ## The webhook rules -/

/-- C10. For every list of kinds, `getValidationRules` returns one rule per kind, in the
order of the list; the operations of each rule are exactly Create, Update and Connect, so
Delete is not among them; its API groups are the group of the kind, its API versions the
version of the kind, and its resources are `p` and `p ++ "/*"`, where `p` is the lower-cased
plural of the kind name. -/
theorem getValidationRules_one_rule_per_kind {S : Sig} (D : Packages S)
    (gvks : List GroupVersionKind) :
    (getValidationRules D gvks).length = gvks.length ∧
    (∀ i : Nat, (getValidationRules D gvks)[i]? =
      (gvks[i]?).map (fun gvk =>
        ({ Operations := ["CREATE", "UPDATE", "CONNECT"]
           APIGroups := [gvk.Group]
           APIVersions := [gvk.Version]
           Resources :=
             [D.ToLower (D.Pluralize gvk.Kind), D.ToLower (D.Pluralize gvk.Kind) ++ "/*"] }
          : RuleWithOperations))) ∧
    (∀ rule ∈ getValidationRules D gvks,
      rule.Operations
          = [OperationType.Create, OperationType.Update, OperationType.Connect] ∧
        OperationType.Delete ∉ rule.Operations) := by
  refine ⟨?_, ?_, ?_⟩
  · rw [getValidationRules_eq_map, List.length_map]
  · intro i
    rw [getValidationRules_eq_map, List.getElem?_map]
    rfl
  · intro rule hrule
    rw [getValidationRules_eq_map, List.mem_map] at hrule
    obtain ⟨gvk, _, rfl⟩ := hrule
    exact ⟨rfl, delete_not_mem_validationRule D gvk⟩

/-! ## Init -/

theorem foldl_AddResourceTree_keys {S : Sig} (D : Packages S)
    (entries : List (GroupVersionKind × S.Ty)) (f : ResourceForest S) (name : String) :
    name ∈ GoMap.keys
        (entries.foldl (fun f e => AddResourceTree D f e.1.Kind e.2) f).TopLevelTrees
      ↔ name ∈ GoMap.keys f.TopLevelTrees ∨ ∃ k ∈ GoMap.keys entries, k.Kind = name := by
  induction entries generalizing f with
  | nil => simp [GoMap.keys]
  | cons e rest ih =>
    rw [List.foldl_cons, ih]
    have hset : name ∈ GoMap.keys (AddResourceTree D f e.1.Kind e.2).TopLevelTrees
        ↔ name = e.1.Kind ∨ name ∈ GoMap.keys f.TopLevelTrees :=
      GoMap.mem_keys_set _ _ _ _
    have hex : (∃ k ∈ GoMap.keys (e :: rest), k.Kind = name)
        ↔ e.1.Kind = name ∨ ∃ k ∈ GoMap.keys rest, k.Kind = name := by
      simp [GoMap.keys]
    rw [hset, hex]
    constructor
    · rintro ((h | h) | h)
      · exact Or.inr (Or.inl h.symm)
      · exact Or.inl h
      · exact Or.inr (Or.inr h)
    · rintro (h | h | h)
      · exact Or.inl (Or.inr h)
      · exact Or.inl (Or.inl h.symm)
      · exact Or.inr h

theorem foldl_AddResourceTree_WF {S : Sig} (D : Packages S)
    (entries : List (GroupVersionKind × S.Ty)) (f : ResourceForest S)
    (h : GoMap.WF f.TopLevelTrees) :
    GoMap.WF (entries.foldl (fun f e => AddResourceTree D f e.1.Kind e.2) f).TopLevelTrees := by
  induction entries generalizing f with
  | nil => exact h
  | cons e rest ih =>
    rw [List.foldl_cons]
    exact ih _ (GoMap.WF_set _ _ _ h)

/-- C6, at the failing input. The two keys apps/v1 ListOptions and batch/v1 ListOptions are
distinct entries of a well-formed `ResourceMap`, yet after `Init` the forest holds a single
top-level tree, under "ListOptions", and the lookups of the worker and of `getCoverage` for
the two keys read that one entry. -/
theorem Init_same_kind_one_tree :
    GoMap.WF exampleSameKind.ResourceMap ∧
    GoMap.size exampleSameKind.ResourceMap = 2 ∧
    GoMap.keys (Init examplePackages (.ok []) exampleSameKind).ResourceForest.TopLevelTrees
      = ["ListOptions"] ∧
    GoMap.size (Init examplePackages (.ok []) exampleSameKind).ResourceForest.TopLevelTrees = 1 ∧
    GoMap.get? (Init examplePackages (.ok []) exampleSameKind).ResourceForest.TopLevelTrees
        ({ Group := "apps", Version := "v1", Kind := "ListOptions" } : GroupVersionKind).Kind
      = GoMap.get? (Init examplePackages (.ok []) exampleSameKind).ResourceForest.TopLevelTrees
        ({ Group := "batch", Version := "v1", Kind := "ListOptions" } : GroupVersionKind).Kind := by
  refine ⟨?_, rfl, ?_, ?_, rfl⟩
  · unfold GoMap.WF GoMap.keys exampleSameKind
    decide
  · decide
  · decide

/-! ## Running the webhook -/

theorem ListenAndServeTLS_not_mem_registerWebhook (W : WebhookWorld)
    (acw : APICoverageWebhook) (rules : List RuleWithOperations) (namespaceName : String) :
    WebhookCall.ListenAndServeTLS ∉ (registerWebhook W acw rules namespaceName).1 := by
  unfold registerWebhook
  cases W.GetDeployment <;> cases W.CreateWebhook rules <;> simp

theorem registerWebhook_err (W : WebhookWorld) (acw acw' : APICoverageWebhook)
    (rules : List RuleWithOperations) (namespaceName namespaceName' : String) :
    (registerWebhook W acw rules namespaceName).2
      = (registerWebhook W acw' rules namespaceName').2 := by
  unfold registerWebhook
  cases W.GetDeployment <;> cases W.CreateWebhook rules <;> rfl

theorem Run_registration_failure {S : Sig} (D : Packages S) (W : WebhookWorld)
    (acw : APICoverageWebhook) (resources : List GroupVersionKind) (namespaceName : String)
    (err : String) (hdelay : W.delayBeforeStop = true)
    (hreg : (registerWebhook W acw (getValidationRules D resources) namespaceName).2
      = some err) :
    (Run D W acw resources namespaceName).err ≠ none ∧
    WebhookCall.ListenAndServeTLS ∉ (Run D W acw resources namespaceName).calls ∧
    (W.getWebhookServer = none →
      (Run D W acw resources namespaceName).err
        = some ("Webhook registration failed: " ++ err)) := by
  have hnot := ListenAndServeTLS_not_mem_registerWebhook W acw (getValidationRules D resources)
    namespaceName
  unfold Run
  cases hs : W.getWebhookServer with
  | some e => simp
  | none =>
    simp only [hdelay, if_true]
    cases hr : registerWebhook W acw (getValidationRules D resources) namespaceName with
    | mk calls res =>
      rw [hr] at hreg hnot
      simp only at hreg hnot
      subst hreg
      simp [hnot]

/-- C11. For every run in which the registration delay fires before the stop channel and
`registerWebhook` returns an error, `Run` returns an error and `ListenAndServeTLS` is not
among its calls; when the server object was built, the error is "Webhook registration
failed: " followed by that of `registerWebhook`. When the run is that of the server's `main`,
`main` ends in its fatal log, again without a call of `ListenAndServeTLS`. -/
theorem Run_unregistered_never_serves {S : Sig} (D : Packages S) (W : WebhookWorld)
    (acw : APICoverageWebhook) (resources : List GroupVersionKind) (namespaceName : String)
    (ResourceMap : GoMap GroupVersionKind S.Ty) (err : String)
    (hdelay : W.delayBeforeStop = true)
    (hreg : (registerWebhook W acw (getValidationRules D resources) namespaceName).2
      = some err) :
    (Run D W acw resources namespaceName).err ≠ none ∧
    WebhookCall.ListenAndServeTLS ∉ (Run D W acw resources namespaceName).calls ∧
    (W.getWebhookServer = none →
      (Run D W acw resources namespaceName).err
        = some ("Webhook registration failed: " ++ err)) ∧
    (resources = GoMap.keys ResourceMap →
      (Server.main D W ResourceMap).err ≠ none ∧
      WebhookCall.ListenAndServeTLS ∉ (Server.main D W ResourceMap).calls) := by
  obtain ⟨h1, h2, h3⟩ := Run_registration_failure D W acw resources namespaceName err hdelay hreg
  refine ⟨h1, h2, h3, ?_⟩
  intro hres
  subst hres
  have hreg' : (registerWebhook W
      { WebhookName := CommonComponentName ++ "." ++ webhookDomain
        ServiceName := CommonComponentName
        DeploymentName := CommonComponentName }
      (getValidationRules D (GoMap.keys ResourceMap)) WebhookNamespace).2 = some err := by
    rw [← hreg]
    exact registerWebhook_err W _ _ _ _ _
  obtain ⟨m1, m2, _⟩ := Run_registration_failure D W _ (GoMap.keys ResourceMap)
    WebhookNamespace err hdelay hreg'
  unfold Server.main
  cases W.BuildWebhookConfiguration with
  | some e => simp
  | none =>
    simp only
    cases hr : (Run D W
        { WebhookName := CommonComponentName ++ "." ++ webhookDomain
          ServiceName := CommonComponentName
          DeploymentName := CommonComponentName }
        (GoMap.keys ResourceMap) WebhookNamespace).err with
    | none => exact absurd hr m1
    | some e => exact ⟨by simp, m2⟩

/-- Witness of C11 on a cluster in which the deployment of the webhook cannot be read. -/
theorem Run_unregistered_never_serves_witness :
    (Run examplePackages exampleNoDeployment
        { WebhookName := "w", ServiceName := "s", DeploymentName := "d" }
        (GoMap.keys exampleFresh.ResourceMap) "k8s-api-coverage").err ≠ none ∧
    WebhookCall.ListenAndServeTLS ∉ (Run examplePackages exampleNoDeployment
        { WebhookName := "w", ServiceName := "s", DeploymentName := "d" }
        (GoMap.keys exampleFresh.ResourceMap) "k8s-api-coverage").calls ∧
    (exampleNoDeployment.getWebhookServer = none →
      (Run examplePackages exampleNoDeployment
        { WebhookName := "w", ServiceName := "s", DeploymentName := "d" }
        (GoMap.keys exampleFresh.ResourceMap) "k8s-api-coverage").err
        = some ("Webhook registration failed: " ++
            ("Error retrieving Deployment Extension object: " ++
              "deployments.apps \"apicoverage-webhook\" not found"))) ∧
    (GoMap.keys exampleFresh.ResourceMap = GoMap.keys exampleFresh.ResourceMap →
      (Server.main examplePackages exampleNoDeployment exampleFresh.ResourceMap).err ≠ none ∧
      WebhookCall.ListenAndServeTLS
        ∉ (Server.main examplePackages exampleNoDeployment exampleFresh.ResourceMap).calls) :=
  Run_unregistered_never_serves examplePackages exampleNoDeployment
    { WebhookName := "w", ServiceName := "s", DeploymentName := "d" }
    (GoMap.keys exampleFresh.ResourceMap) "k8s-api-coverage" exampleFresh.ResourceMap
    ("Error retrieving Deployment Extension object: " ++
      "deployments.apps \"apicoverage-webhook\" not found")
    rfl rfl

/-! ## The states the recorder reaches -/

theorem RecordResourceCoverage_frame {S : Sig} (D : Packages S) (a a' : APICoverageRecorder S)
    (r : HttpRequest) (written : AdmissionReview)
    (h : RecordResourceCoverage D a r = .wrote a' written) :
    a'.ResourceMap = a.ResourceMap ∧ a'.ResourceForest = a.ResourceForest ∧
    a'.ignoredFields = a.ignoredFields ∧ a'.NodeRules = a.NodeRules ∧
    a'.FieldRules = a.FieldRules ∧
    (a'.resourceChannel = a.resourceChannel ∨
      ∃ m, m.resourceGVK ∈ GoMap.keys a.ResourceMap ∧
        a'.resourceChannel = a.resourceChannel ++ [m]) := by
  cases hj : jsonRead D r "review" with
  | error e =>
    unfold RecordResourceCoverage at h
    rw [hj] at h
    simp only [HandlerResult.wrote.injEq] at h
    obtain ⟨rfl, _⟩ := h
    exact ⟨rfl, rfl, rfl, rfl, rfl, Or.inl rfl⟩
  | ok review =>
    cases hq : review.Request with
    | none =>
      unfold RecordResourceCoverage at h
      simp only [hj, hq] at h
      cases h
    | some request =>
      rw [RecordResourceCoverage_decoded D a r review request hj hq] at h
      cases hg : GoMap.get? a.ResourceMap request.Kind with
      | none =>
        rw [hg] at h
        simp only [HandlerResult.wrote.injEq] at h
        obtain ⟨rfl, _⟩ := h
        exact ⟨rfl, rfl, rfl, rfl, rfl, Or.inl rfl⟩
      | some ty =>
        rw [hg] at h
        simp only [HandlerResult.wrote.injEq] at h
        obtain ⟨rfl, _⟩ := h
        refine ⟨rfl, rfl, rfl, rfl, rfl, Or.inr ⟨_, ?_, rfl⟩⟩
        rw [← GoMap.get?_isSome_iff, hg]
        rfl

theorem updateResourceCoverageTreeStep_frame {S : Sig} (D : Packages S)
    (a a' : APICoverageRecorder S) (h : updateResourceCoverageTreeStep D a = .next a') :
    a'.ResourceMap = a.ResourceMap ∧
    a'.ResourceForest.TopLevelTrees = a.ResourceForest.TopLevelTrees ∧
    a'.ignoredFields = a.ignoredFields ∧ a'.NodeRules = a.NodeRules ∧
    a'.FieldRules = a.FieldRules ∧
    ∃ m, a.resourceChannel = m :: a'.resourceChannel := by
  unfold updateResourceCoverageTreeStep at h
  cases hq : a.resourceChannel with
  | nil => simp only [hq] at h; cases h
  | cons m pending =>
    simp only [hq] at h
    cases hty : GoMap.get? a.ResourceMap m.resourceGVK with
    | none => simp only [hty] at h; cases h
    | some ty =>
      simp only [hty] at h
      cases hu : D.Unmarshal ty m.rawResourceValue with
      | none =>
        simp only [hu, WorkerResult.next.injEq] at h
        subst h
        exact ⟨rfl, rfl, rfl, rfl, rfl, m, rfl⟩
      | some v =>
        simp only [hu, WorkerResult.next.injEq] at h
        subst h
        exact ⟨rfl, rfl, rfl, rfl, rfl, m, rfl⟩

theorem Reachable_frame {S : Sig} (D : Packages S) (start a : APICoverageRecorder S)
    (h : Reachable D start a)
    (hstart : ∀ m ∈ start.resourceChannel, m.resourceGVK ∈ GoMap.keys start.ResourceMap) :
    a.ResourceMap = start.ResourceMap ∧
    a.ResourceForest.TopLevelTrees = start.ResourceForest.TopLevelTrees ∧
    a.ignoredFields = start.ignoredFields ∧ a.NodeRules = start.NodeRules ∧
    a.FieldRules = start.FieldRules ∧
    ∀ m ∈ a.resourceChannel, m.resourceGVK ∈ GoMap.keys start.ResourceMap := by
  induction h with
  | start => exact ⟨rfl, rfl, rfl, rfl, rfl, hstart⟩
  | record a a' r written _ hstep ih =>
    obtain ⟨i1, i2, i3, i4, i5, i6⟩ := ih
    obtain ⟨f1, f2, f3, f4, f5, f6⟩ := RecordResourceCoverage_frame D a a' r written hstep
    refine ⟨f1.trans i1, (by rw [f2]; exact i2), f3.trans i3, f4.trans i4, f5.trans i5, ?_⟩
    intro m hm
    rcases f6 with hsame | ⟨m', hm', happ⟩
    · rw [hsame] at hm
      exact i6 m hm
    · rw [happ, List.mem_append, List.mem_singleton] at hm
      rcases hm with hm | rfl
      · exact i6 m hm
      · rw [← i1]; exact hm'
  | work a a' _ hstep ih =>
    obtain ⟨i1, i2, i3, i4, i5, i6⟩ := ih
    obtain ⟨f1, f2, f3, f4, f5, m', hm'⟩ := updateResourceCoverageTreeStep_frame D a a' hstep
    refine ⟨f1.trans i1, f2.trans i2, f3.trans i3, f4.trans i4, f5.trans i5, ?_⟩
    intro m hm
    exact i6 m (by rw [hm']; exact List.mem_cons_of_mem _ hm)

theorem Init_trees {S : Sig} (D : Packages S) (readFromFile : Except String IgnoredFields)
    (a : APICoverageRecorder S) :
    ∀ k ∈ GoMap.keys (Init D readFromFile a).ResourceMap,
      k.Kind ∈ GoMap.keys (Init D readFromFile a).ResourceForest.TopLevelTrees := by
  intro k hk
  exact (foldl_AddResourceTree_keys D a.ResourceMap a.ResourceForest k.Kind).2
    (Or.inr ⟨k, hk, rfl⟩)

/-- C18, at the failing input. The body of the example request decodes into a review that
carries no request; `RecordResourceCoverage` then reads `review.Request.Kind` through the nil
pointer and writes no admission response. -/
theorem RecordResourceCoverage_no_request_nil_dereference :
    jsonRead examplePackages exampleNoRequest "review"
      = .ok { Request := none, Response := none } ∧
    RecordResourceCoverage examplePackages exampleRecorder exampleNoRequest
      = .nilDereference ∧
    (RecordResourceCoverage examplePackages exampleRecorder exampleNoRequest).response?
      = none :=
  ⟨rfl, rfl, rfl⟩

/-- C19. In every state reached from `Init` by calls of `RecordResourceCoverage` and
iterations of `updateResourceCoverageTree`, every message in the channel has a key of
`ResourceMap` whose `Kind` is a key of `TopLevelTrees`; hence an iteration of the worker
never meets a nil type, and for the message at the head both the lookup of the registered
type and the lookup of the tree succeed. -/
theorem Reachable_channel_registered {S : Sig} (D : Packages S)
    (readFromFile : Except String IgnoredFields) (a0 a : APICoverageRecorder S)
    (h : Reachable D (Init D readFromFile a0) a) :
    (∀ m ∈ a.resourceChannel,
      m.resourceGVK ∈ GoMap.keys a.ResourceMap ∧
      m.resourceGVK.Kind ∈ GoMap.keys a.ResourceForest.TopLevelTrees) ∧
    (∀ m pending, a.resourceChannel = m :: pending →
      (∃ resourceType, GoMap.get? a.ResourceMap m.resourceGVK = some resourceType) ∧
      (∃ resourceTree,
        GoMap.get? a.ResourceForest.TopLevelTrees m.resourceGVK.Kind = some resourceTree)) ∧
    updateResourceCoverageTreeStep D a ≠ .nilType := by
  obtain ⟨h1, h2, _, _, _, h6⟩ := Reachable_frame D (Init D readFromFile a0) a h
    (by intro m hm; cases hm)
  have hreg : ∀ m ∈ a.resourceChannel,
      m.resourceGVK ∈ GoMap.keys a.ResourceMap ∧
      m.resourceGVK.Kind ∈ GoMap.keys a.ResourceForest.TopLevelTrees := by
    intro m hm
    have hk := h6 m hm
    refine ⟨by rw [h1]; exact hk, ?_⟩
    rw [h2]
    exact Init_trees D readFromFile a0 m.resourceGVK hk
  have hhead : ∀ m pending, a.resourceChannel = m :: pending →
      (∃ resourceType, GoMap.get? a.ResourceMap m.resourceGVK = some resourceType) ∧
      (∃ resourceTree,
        GoMap.get? a.ResourceForest.TopLevelTrees m.resourceGVK.Kind = some resourceTree) := by
    intro m pending hq
    obtain ⟨hk, ht⟩ := hreg m (by rw [hq]; exact List.mem_cons_self _ _)
    exact ⟨Option.isSome_iff_exists.1 ((GoMap.get?_isSome_iff _ _).2 hk),
      Option.isSome_iff_exists.1 ((GoMap.get?_isSome_iff _ _).2 ht)⟩
  refine ⟨hreg, hhead, ?_⟩
  intro hnil
  unfold updateResourceCoverageTreeStep at hnil
  cases hq : a.resourceChannel with
  | nil => simp only [hq] at hnil; cases hnil
  | cons m pending =>
    obtain ⟨⟨ty, hty⟩, _⟩ := hhead m pending hq
    simp only [hq, hty] at hnil
    cases hu : D.Unmarshal ty m.rawResourceValue <;> rw [hu] at hnil <;> cases hnil

/-- Witness of C19 on the example recorder after `Init` and one create review. -/
theorem Reachable_channel_registered_witness :
    Reachable examplePackages (Init examplePackages (.ok []) exampleFresh) exampleEnqueued ∧
    (∀ m ∈ exampleEnqueued.resourceChannel,
      m.resourceGVK ∈ GoMap.keys exampleEnqueued.ResourceMap ∧
      m.resourceGVK.Kind ∈ GoMap.keys exampleEnqueued.ResourceForest.TopLevelTrees) ∧
    (∀ m pending, exampleEnqueued.resourceChannel = m :: pending →
      (∃ resourceType,
        GoMap.get? exampleEnqueued.ResourceMap m.resourceGVK = some resourceType) ∧
      (∃ resourceTree,
        GoMap.get? exampleEnqueued.ResourceForest.TopLevelTrees m.resourceGVK.Kind
          = some resourceTree)) ∧
    updateResourceCoverageTreeStep examplePackages exampleEnqueued ≠ .nilType :=
  have h : Reachable examplePackages (Init examplePackages (.ok []) exampleFresh)
      exampleEnqueued :=
    Reachable.record (Init examplePackages (.ok []) exampleFresh) exampleEnqueued exampleCreate
      (appendAndWriteAdmissionResponse
        { Request := some
            { Kind := { Group := "", Version := "v1", Kind := "Pod" }
              Operation := "CREATE", Raw := [4] }
          Response := none }
        true "Welcome Aboard")
      Reachable.start rfl
  ⟨h, Reachable_channel_registered examplePackages (.ok []) exampleFresh exampleEnqueued h⟩

/-! ## Init -/

/-- C15. When reading the file of ignored fields fails, `Init` on a recorder whose set of
ignored fields is still the empty zero value returns a recorder in which a tree is stored
for the `Kind` of every registered key, the channel is there and empty with the worker
waiting on it, and the set of ignored fields is empty; the set stays empty in every state
reached afterwards, so every later `getCoverage` builds its coverage data with the empty
set. -/
theorem Init_read_failure_empty_ignoredFields {S : Sig} (D : Packages S) (err : String)
    (a0 : APICoverageRecorder S) (hzero : a0.ignoredFields = []) :
    (∀ k ∈ GoMap.keys a0.ResourceMap,
      k.Kind ∈ GoMap.keys (Init D (.error err) a0).ResourceForest.TopLevelTrees) ∧
    (Init D (.error err) a0).resourceChannel = [] ∧
    updateResourceCoverageTreeStep D (Init D (.error err) a0) = .waiting ∧
    (Init D (.error err) a0).ignoredFields = [] ∧
    (∀ a, Reachable D (Init D (.error err) a0) a →
      a.ignoredFields = [] ∧
      ∀ kind, (getCoverage D a kind).2 =
        D.BuildCoverageData ((GoMap.get? a.ResourceForest.TopLevelTrees kind).getD D.ZeroTree)
          a.ResourceForest.Nodes a.NodeRules a.FieldRules []) := by
  have hinit : (Init D (.error err) a0).ignoredFields = [] := by
    simp only [Init, IgnoredFields.ReadFromFile]
    exact hzero
  refine ⟨Init_trees D (.error err) a0, rfl, rfl, hinit, ?_⟩
  intro a ha
  obtain ⟨_, _, h3, _, _, _⟩ := Reachable_frame D (Init D (.error err) a0) a ha
    (by intro m hm; cases hm)
  have hig : a.ignoredFields = [] := h3.trans hinit
  refine ⟨hig, ?_⟩
  intro kind
  simp only [getCoverage, hig]

/-- Witness of C15 on the example recorder as the server builds it. -/
theorem Init_read_failure_empty_ignoredFields_witness :
    exampleFresh.ignoredFields = [] ∧
    (∀ k ∈ GoMap.keys exampleFresh.ResourceMap,
      k.Kind ∈ GoMap.keys
        (Init examplePackages (.error "no such file") exampleFresh).ResourceForest.TopLevelTrees) ∧
    (Init examplePackages (.error "no such file") exampleFresh).resourceChannel = [] ∧
    updateResourceCoverageTreeStep examplePackages
      (Init examplePackages (.error "no such file") exampleFresh) = .waiting ∧
    (Init examplePackages (.error "no such file") exampleFresh).ignoredFields = [] ∧
    (∀ a, Reachable examplePackages (Init examplePackages (.error "no such file") exampleFresh) a →
      a.ignoredFields = [] ∧
      ∀ kind, (getCoverage examplePackages a kind).2 =
        examplePackages.BuildCoverageData
          ((GoMap.get? a.ResourceForest.TopLevelTrees kind).getD examplePackages.ZeroTree)
          a.ResourceForest.Nodes a.NodeRules a.FieldRules []) :=
  ⟨rfl, Init_read_failure_empty_ignoredFields examplePackages "no such file" exampleFresh rfl⟩

/-! ## The client in normal mode -/

theorem mem_foldl_append {α β : Type} (f : α → List β) (l : List α) (init : List β) (x : β) :
    x ∈ l.foldl (fun cs e => cs ++ f e) init ↔ x ∈ init ∨ ∃ e ∈ l, x ∈ f e := by
  induction l generalizing init with
  | nil => simp
  | cons e rest ih =>
    rw [List.foldl_cons, ih]
    simp only [List.mem_append, List.mem_cons, exists_eq_or_imp]
    tauto

theorem mainNormal_fatal {Ty : Type} (W : ClientWorld Ty) (calls : List ClientCall)
    (webhookURI : String) (huri : Client.getWebhookURI W = (calls, .ok webhookURI)) :
    ((Client.mainNormal W).fatal ≠ none ↔
      W.GetAndWriteTotalCoverage webhookURI (W.Join W.artifactsDir "totalcoverage.html") ≠ none ∨
      (∃ err, W.GetResourcePercentages webhookURI = .error err) ∨
      (∃ coverage, W.GetResourcePercentages webhookURI = .ok coverage ∧
        W.WriteResourcePercentages (W.Join W.artifactsDir "junit_bazel.xml") coverage ≠ none)) := by
  unfold Client.mainNormal
  rw [huri]
  simp only
  cases ht : W.GetAndWriteTotalCoverage webhookURI (W.Join W.artifactsDir "totalcoverage.html") with
  | some e => simp
  | none =>
    cases hp : W.GetResourcePercentages webhookURI with
    | error e => simp
    | ok coverage =>
      cases hw : W.WriteResourcePercentages (W.Join W.artifactsDir "junit_bazel.xml") coverage
        <;> simp [hw]

theorem mainNormal_calls {Ty : Type} (W : ClientWorld Ty) (calls : List ClientCall)
    (webhookURI : String) (huri : Client.getWebhookURI W = (calls, .ok webhookURI))
    (c : ClientCall)
    (hc : (∃ e ∈ W.ResourceMap, c ∈ Client.fetchResource W webhookURI e.1) ∨
      c = ClientCall.GetAndWriteTotalCoverage webhookURI
        (W.Join W.artifactsDir "totalcoverage.html")) :
    c ∈ (Client.mainNormal W).calls := by
  have hfetch : c ∈ W.ResourceMap.foldl (fun cs e => cs ++ Client.fetchResource W webhookURI e.1)
        (calls ++ [ClientCall.Printf ("Using webhook-uri " ++ webhookURI)]) ++
      [ClientCall.GetAndWriteTotalCoverage webhookURI
        (W.Join W.artifactsDir "totalcoverage.html")] := by
    rw [List.mem_append, mem_foldl_append]
    rcases hc with h | h
    · exact Or.inl (Or.inr h)
    · exact Or.inr (by rw [h]; exact List.mem_singleton_self _)
  unfold Client.mainNormal
  rw [huri]
  simp only
  split
  · exact hfetch
  · split
    · exact List.mem_append_left _ hfetch
    · split
      · exact List.mem_append_left _ (List.mem_append_left _ hfetch)
      · exact List.mem_append_left _ (List.mem_append_left _ (List.mem_append_left _ hfetch))

theorem main_normal_mode {Ty : Type} (W : ClientWorld Ty) (hmode : W.buildFailedFlag = false)
    (hdir : W.statNotExist = false ∨ W.MkdirAll = none) :
    (Client.main W).fatal = (Client.mainNormal W).fatal ∧
    ∀ c ∈ (Client.mainNormal W).calls, c ∈ (Client.main W).calls := by
  unfold Client.main
  rcases hdir with h | h
  · simp only [h, hmode]
    exact ⟨rfl, fun c hc => List.mem_append_right _ hc⟩
  · cases hs : W.statNotExist <;> simp only [h, hmode] <;>
      exact ⟨rfl, fun c hc => List.mem_append_right _ hc⟩

/-- Counterexample to C12 as stated: in normal mode the report of the kind and the total
coverage are fetched without an error, the fetch of the percentages fails, and the run ends
in a fatal log. -/
theorem main_aborts_on_percentages_failure :
    examplePercentagesDown.buildFailedFlag = false ∧
    examplePercentagesDown.GetAndWriteTotalCoverage "https://10.0.0.1:443"
      "artifacts/totalcoverage.html" = none ∧
    ClientCall.GetAndWriteTotalCoverage "https://10.0.0.1:443" "artifacts/totalcoverage.html"
      ∈ (Client.main examplePercentagesDown).calls ∧
    (Client.main examplePercentagesDown).fatal
      = some "Failed retrieving resource coverage percentages: unexpected EOF" := by
  refine ⟨rfl, rfl, ?_, rfl⟩
  simp [Client.main, Client.mainNormal, Client.getWebhookURI, examplePercentagesDown,
    Client.fetchResource]

/-- C12, amended. In normal mode of the client, once the artifacts directory is there and the
webhook URI is resolved, the run ends in a fatal log if and only if the fetch of the total
coverage fails, or the fetch of the percentages fails, or writing the percentages fails.
The outcome of the fetch of a kind's report takes no part in that: for every registered key
the report is fetched and a line is logged on its outcome, a failure included, and the loop
goes on to the fetch of the total coverage. -/
theorem main_abort_iff {Ty : Type} (W : ClientWorld Ty) (calls : List ClientCall)
    (webhookURI : String) (hmode : W.buildFailedFlag = false)
    (hdir : W.statNotExist = false ∨ W.MkdirAll = none)
    (huri : Client.getWebhookURI W = (calls, .ok webhookURI)) :
    ((Client.main W).fatal ≠ none ↔
      W.GetAndWriteTotalCoverage webhookURI (W.Join W.artifactsDir "totalcoverage.html") ≠ none ∨
      (∃ err, W.GetResourcePercentages webhookURI = .error err) ∨
      (∃ coverage, W.GetResourcePercentages webhookURI = .ok coverage ∧
        W.WriteResourcePercentages (W.Join W.artifactsDir "junit_bazel.xml") coverage ≠ none)) ∧
    (∀ gvk ∈ GoMap.keys W.ResourceMap,
      ClientCall.GetAndWriteResourceCoverage webhookURI gvk (Client.resourceOutputPath W gvk)
        ∈ (Client.main W).calls ∧
      ∀ err,
        W.GetAndWriteResourceCoverage webhookURI gvk (Client.resourceOutputPath W gvk)
            = some err →
          ClientCall.Printf
              ("Failed retrieving resource coverage for resource " ++ gvk.String ++ ": "
                ++ err ++ " ")
            ∈ (Client.main W).calls) ∧
    ClientCall.GetAndWriteTotalCoverage webhookURI (W.Join W.artifactsDir "totalcoverage.html")
      ∈ (Client.main W).calls := by
  obtain ⟨hfatal, hcalls⟩ := main_normal_mode W hmode hdir
  refine ⟨?_, ?_, ?_⟩
  · rw [hfatal]
    exact mainNormal_fatal W calls webhookURI huri
  · intro gvk hgvk
    obtain ⟨e, he, rfl⟩ := List.mem_map.1 hgvk
    refine ⟨?_, ?_⟩
    · apply hcalls
      apply mainNormal_calls W calls webhookURI huri
      exact Or.inl ⟨e, he, by simp [Client.fetchResource]⟩
    · intro err herr
      apply hcalls
      apply mainNormal_calls W calls webhookURI huri
      exact Or.inl ⟨e, he, by simp [Client.fetchResource, herr]⟩
  · apply hcalls
    exact mainNormal_calls W calls webhookURI huri _ (Or.inr rfl)

/-- Witness of the amended C12 on the run in which the report of the kind is not fetched. -/
theorem main_abort_iff_witness :
    ((Client.main exampleKindDown).fatal ≠ none ↔
      exampleKindDown.GetAndWriteTotalCoverage "https://10.0.0.1:443"
        (exampleKindDown.Join exampleKindDown.artifactsDir "totalcoverage.html") ≠ none ∨
      (∃ err, exampleKindDown.GetResourcePercentages "https://10.0.0.1:443" = .error err) ∨
      (∃ coverage, exampleKindDown.GetResourcePercentages "https://10.0.0.1:443" = .ok coverage ∧
        exampleKindDown.WriteResourcePercentages
          (exampleKindDown.Join exampleKindDown.artifactsDir "junit_bazel.xml") coverage
            ≠ none)) ∧
    (∀ gvk ∈ GoMap.keys exampleKindDown.ResourceMap,
      ClientCall.GetAndWriteResourceCoverage "https://10.0.0.1:443" gvk
          (Client.resourceOutputPath exampleKindDown gvk)
        ∈ (Client.main exampleKindDown).calls ∧
      ∀ err,
        exampleKindDown.GetAndWriteResourceCoverage "https://10.0.0.1:443" gvk
            (Client.resourceOutputPath exampleKindDown gvk) = some err →
          ClientCall.Printf
              ("Failed retrieving resource coverage for resource " ++ gvk.String ++ ": "
                ++ err ++ " ")
            ∈ (Client.main exampleKindDown).calls) ∧
    ClientCall.GetAndWriteTotalCoverage "https://10.0.0.1:443"
        (exampleKindDown.Join exampleKindDown.artifactsDir "totalcoverage.html")
      ∈ (Client.main exampleKindDown).calls :=
  main_abort_iff exampleKindDown [] "https://10.0.0.1:443" rfl (Or.inl rfl) rfl

/-! ## The tools -/

/-- C13. For every service for which `GetWebhookServiceURI` returns a nil error, the string
returned is "https://" followed by an address, ":" and a port in decimal: for a service of
type LoadBalancer, the IP of its first ingress and the `Port` of its first service port; for
a service of type NodePort, the first address of the first node listed and the `NodePort` of
its first service port. -/
theorem GetWebhookServiceURI_accepted_form (K : KubeWorld) (namespaceName serviceName : String)
    (uri : String)
    (h : Tools.GetWebhookServiceURI K namespaceName serviceName = .returned uri none) :
    ∃ svc, K.GetService = .ok svc ∧
      ((svc.SpecType = ServiceTypeLoadBalancer ∧
          ∃ ip ingresses port ports,
            svc.Ingress = ip :: ingresses ∧ svc.Ports = port :: ports ∧
            uri = "https://" ++ ip ++ ":" ++ Tools.Sprint port.Port) ∨
        (svc.SpecType = ServiceTypeNodePort ∧
          ∃ node nodes address addresses port ports,
            K.ListNodes = .ok (node :: nodes) ∧ node.Addresses = address :: addresses ∧
            svc.Ports = port :: ports ∧
            uri = "https://" ++ address ++ ":" ++ Tools.Sprint port.NodePort)) := by
  unfold Tools.GetWebhookServiceURI at h
  cases hs : K.GetService with
  | error e => rw [hs] at h; simp at h
  | ok svc =>
    refine ⟨svc, rfl, ?_⟩
    rw [hs] at h
    simp only at h
    by_cases hlb : svc.SpecType = ServiceTypeLoadBalancer
    · left
      rw [if_pos hlb] at h
      cases hi : svc.Ingress with
      | nil => rw [hi] at h; simp at h
      | cons ip ingresses =>
        cases hp : svc.Ports with
        | nil => rw [hi, hp] at h; simp at h
        | cons port ports =>
          rw [hi, hp] at h
          simp only [URIResult.returned.injEq, and_true] at h
          exact ⟨hlb, ip, ingresses, port, ports, rfl, rfl, h.symm⟩
    · rw [if_neg hlb] at h
      by_cases hnp : svc.SpecType = ServiceTypeNodePort
      · right
        rw [if_pos hnp] at h
        cases hn : K.ListNodes with
        | error e => rw [hn] at h; simp at h
        | ok nodes =>
          cases nodes with
          | nil => rw [hn] at h; simp at h
          | cons node nodes =>
            cases ha : node.Addresses with
            | nil => rw [hn] at h; simp only [ha] at h; simp at h
            | cons address addresses =>
              cases hp : svc.Ports with
              | nil => rw [hn] at h; simp only [ha, hp] at h; simp at h
              | cons port ports =>
                rw [hn] at h
                simp only [ha, hp, URIResult.returned.injEq, and_true] at h
                exact ⟨hnp, node, nodes, address, addresses, port, ports, rfl, ha, rfl,
                  h.symm⟩
      · rw [if_neg hnp] at h
        simp at h

/-- Witness of C13 on a load balancer with the ingress 35.1.2.3 and the port 443. -/
theorem GetWebhookServiceURI_accepted_form_witness :
    Tools.GetWebhookServiceURI exampleLoadBalancer "k8s-api-coverage" "apicoverage-webhook"
      = .returned "https://35.1.2.3:443" none ∧
    ∃ svc, exampleLoadBalancer.GetService = .ok svc ∧
      ((svc.SpecType = ServiceTypeLoadBalancer ∧
          ∃ ip ingresses port ports,
            svc.Ingress = ip :: ingresses ∧ svc.Ports = port :: ports ∧
            "https://35.1.2.3:443" = "https://" ++ ip ++ ":" ++ Tools.Sprint port.Port) ∨
        (svc.SpecType = ServiceTypeNodePort ∧
          ∃ node nodes address addresses port ports,
            exampleLoadBalancer.ListNodes = .ok (node :: nodes) ∧
            node.Addresses = address :: addresses ∧ svc.Ports = port :: ports ∧
            "https://35.1.2.3:443" = "https://" ++ address ++ ":" ++ Tools.Sprint port.NodePort)) :=
  have h : Tools.GetWebhookServiceURI exampleLoadBalancer "k8s-api-coverage"
      "apicoverage-webhook" = .returned "https://35.1.2.3:443" none := by decide
  ⟨h, GetWebhookServiceURI_accepted_form exampleLoadBalancer "k8s-api-coverage"
    "apicoverage-webhook" "https://35.1.2.3:443" h⟩

/-- C14. `GetWebhookServiceURI` returns the empty string and an error when the lookup of the
service fails, when the service is of type LoadBalancer with no ingress, when the service is
of type NodePort and listing the nodes fails, lists no node or the first node has no
address, and when the service is of any other type; whenever it returns an error the string
it returns is empty. -/
theorem GetWebhookServiceURI_errors (K : KubeWorld) (namespaceName serviceName : String) :
    (∀ err, K.GetService = .error err →
      ∃ msg, Tools.GetWebhookServiceURI K namespaceName serviceName = .returned "" (some msg)) ∧
    (∀ svc, K.GetService = .ok svc → svc.SpecType = ServiceTypeLoadBalancer →
      svc.Ingress = [] →
      ∃ msg, Tools.GetWebhookServiceURI K namespaceName serviceName = .returned "" (some msg)) ∧
    (∀ svc, K.GetService = .ok svc → svc.SpecType = ServiceTypeNodePort →
      ((∃ err, K.ListNodes = .error err) ∨ K.ListNodes = .ok [] ∨
        ∃ node nodes, K.ListNodes = .ok (node :: nodes) ∧ node.Addresses = []) →
      ∃ msg, Tools.GetWebhookServiceURI K namespaceName serviceName = .returned "" (some msg)) ∧
    (∀ svc, K.GetService = .ok svc → svc.SpecType ≠ ServiceTypeLoadBalancer →
      svc.SpecType ≠ ServiceTypeNodePort →
      ∃ msg, Tools.GetWebhookServiceURI K namespaceName serviceName = .returned "" (some msg)) ∧
    (∀ uri err,
      Tools.GetWebhookServiceURI K namespaceName serviceName = .returned uri (some err) →
      uri = "") := by
  refine ⟨?_, ?_, ?_, ?_, ?_⟩
  · intro err hs
    unfold Tools.GetWebhookServiceURI
    rw [hs]
    exact ⟨_, rfl⟩
  · intro svc hs hlb hi
    unfold Tools.GetWebhookServiceURI
    rw [hs]
    simp only [if_pos hlb, hi]
    exact ⟨_, rfl⟩
  · intro svc hs hnp hnodes
    have hlb : ¬ svc.SpecType = ServiceTypeLoadBalancer := by
      rw [hnp]; decide
    unfold Tools.GetWebhookServiceURI
    rw [hs]
    simp only [if_neg hlb, if_pos hnp]
    rcases hnodes with ⟨err, hn⟩ | hn | ⟨node, nodes, hn, ha⟩
    · rw [hn]; exact ⟨_, rfl⟩
    · rw [hn]; exact ⟨_, rfl⟩
    · rw [hn]; simp only [ha]; exact ⟨_, rfl⟩
  · intro svc hs hlb hnp
    unfold Tools.GetWebhookServiceURI
    rw [hs]
    simp only [if_neg hlb, if_neg hnp]
    exact ⟨_, rfl⟩
  · intro uri err h
    unfold Tools.GetWebhookServiceURI at h
    cases hs : K.GetService with
    | error e =>
      rw [hs] at h
      simp only [URIResult.returned.injEq] at h
      exact h.1.symm
    | ok svc =>
      rw [hs] at h
      simp only at h
      split at h
      · split at h
        · simp only [URIResult.returned.injEq] at h; exact h.1.symm
        · split at h <;> simp at h
      · split at h
        · split at h
          · simp only [URIResult.returned.injEq] at h; exact h.1.symm
          · simp only [URIResult.returned.injEq] at h; exact h.1.symm
          · split at h
            · simp only [URIResult.returned.injEq] at h; exact h.1.symm
            · split at h <;> simp at h
        · simp only [URIResult.returned.injEq] at h; exact h.1.symm

/-- C20. For every `CoveragePercentages`, the error that `WriteResourcePercentages` returns
is the error of writing the file, and the file is written with the string the renderer
returned: the error of the renderer takes no part in the outcome, so when the rendering
fails its error is not returned and the file is still written. -/
theorem WriteResourcePercentages_returns_write_error
    (GetCoveragePercentageXMLDisplay : CoveragePercentages → String × Option String)
    (WriteFile : String → String → Nat → Option String) (outputFile : String)
    (coveragePercentages : CoveragePercentages) :
    (Tools.WriteResourcePercentages GetCoveragePercentageXMLDisplay WriteFile outputFile
        coveragePercentages).err
      = WriteFile outputFile (GetCoveragePercentageXMLDisplay coveragePercentages).1 0o400 ∧
    (Tools.WriteResourcePercentages GetCoveragePercentageXMLDisplay WriteFile outputFile
        coveragePercentages).file = outputFile ∧
    (Tools.WriteResourcePercentages GetCoveragePercentageXMLDisplay WriteFile outputFile
        coveragePercentages).data = (GetCoveragePercentageXMLDisplay coveragePercentages).1 ∧
    (∀ data renderErr,
      Tools.WriteResourcePercentages (fun _ => (data, some renderErr)) WriteFile outputFile
          coveragePercentages
        = Tools.WriteResourcePercentages (fun _ => (data, none)) WriteFile outputFile
          coveragePercentages) ∧
    (∀ data renderErr,
      (Tools.WriteResourcePercentages (fun _ => (data, some renderErr)) (fun _ _ _ => none)
          outputFile coveragePercentages)
        = { file := outputFile, data := data, perm := 0o400, err := none }) :=
  ⟨rfl, rfl, rfl, fun _ _ => rfl, fun _ _ => rfl⟩

theorem files_CleanupJunitFiles (l : Tools.Listing) (path : List String) :
    Tools.Listing.files path (Tools.CleanupJunitFiles l) =
      (Tools.Listing.files path l).filter
        (fun f => !Tools.jUnitFileRegexExpr (Tools.fileName f)) := by
  induction l generalizing path with
  | nil => rfl
  | file name content rest ih =>
    have hname : Tools.fileName (path ++ [name], content) = name := by
      simp [Tools.fileName]
    by_cases hm : Tools.jUnitFileRegexExpr name = true
    · simp only [Tools.CleanupJunitFiles, hm, if_true, Tools.Listing.files, List.filter_cons,
        hname, Bool.not_true]
      exact ih path
    · have hm' : Tools.jUnitFileRegexExpr name = false := by simpa using hm
      simp only [Tools.CleanupJunitFiles, hm', Tools.Listing.files, List.filter_cons, hname,
        Bool.not_false, if_true]
      rw [ih path]
  | dir name entries rest ih1 ih2 =>
    simp only [Tools.CleanupJunitFiles, Tools.Listing.files, List.filter_append]
    rw [ih1 (path ++ [name]), ih2 path]

theorem dirs_CleanupJunitFiles (l : Tools.Listing) (path : List String) :
    Tools.Listing.dirs path (Tools.CleanupJunitFiles l) = Tools.Listing.dirs path l := by
  induction l generalizing path with
  | nil => rfl
  | file name content rest ih =>
    by_cases hm : Tools.jUnitFileRegexExpr name = true
    · simp only [Tools.CleanupJunitFiles, hm, if_true, Tools.Listing.dirs]
      exact ih path
    · have hm' : Tools.jUnitFileRegexExpr name = false := by simpa using hm
      simp only [Tools.CleanupJunitFiles, hm', Tools.Listing.dirs]
      exact ih path
  | dir name entries rest ih1 ih2 =>
    simp only [Tools.CleanupJunitFiles, Tools.Listing.dirs]
    rw [ih1 (path ++ [name]), ih2 path]

theorem mem_before_of_split {α : Type} (a rest pre post : List α) (x c : α)
    (h : a ++ x :: rest = pre ++ c :: post) (hca : c ∉ a) (hcx : c ≠ x) : x ∈ pre := by
  rcases List.append_eq_append_iff.1 h with ⟨a', hpre, hrest⟩ | ⟨c', ha, hpost⟩
  · cases a' with
    | nil =>
      simp only [List.nil_append, List.cons.injEq] at hrest
      exact absurd hrest.1.symm hcx
    | cons y a'' =>
      simp only [List.cons_append, List.cons.injEq] at hrest
      rw [hpre, hrest.1]
      simp
  · cases c' with
    | nil =>
      simp only [List.nil_append, List.cons.injEq] at hpost
      exact absurd hpost.1 hcx
    | cons y c'' =>
      simp only [List.cons_append, List.cons.injEq] at hpost
      exfalso
      apply hca
      rw [ha, hpost.1]
      simp

theorem main_calls_shape {Ty : Type} (W : ClientWorld Ty) :
    (Client.main W).calls = [ClientCall.MkdirAll W.artifactsDir] ∨
    ∃ rest, (Client.main W).calls =
      (if W.statNotExist then [ClientCall.MkdirAll W.artifactsDir] else []) ++
        ClientCall.CleanupJunitFiles W.artifactsDir :: rest := by
  unfold Client.main
  cases hs : W.statNotExist <;> cases hm : W.MkdirAll <;> cases hb : W.buildFailedFlag <;>
    simp

/-- C16. For every content of the artifacts directory, after `CleanupJunitFiles` the regular
files under it, at every depth, are those of before whose name does not match the pattern
`junit_.*\.xml`, each with its content: no file left has a matching name, every file whose
name does not match is still there unchanged, and the directories are the same. In every run
of the client the call of `CleanupJunitFiles` comes before every call that writes a report.
On the example directory the two reports of an earlier run are removed, and the directory
whose own name matches stays. -/
theorem CleanupJunitFiles_removes_reports {Ty : Type} (l : Tools.Listing)
    (path : List String) (W : ClientWorld Ty) :
    Tools.Listing.files path (Tools.CleanupJunitFiles l) =
      (Tools.Listing.files path l).filter
        (fun f => !Tools.jUnitFileRegexExpr (Tools.fileName f)) ∧
    (∀ f ∈ Tools.Listing.files path (Tools.CleanupJunitFiles l),
      Tools.jUnitFileRegexExpr (Tools.fileName f) = false ∧ f ∈ Tools.Listing.files path l) ∧
    (∀ f ∈ Tools.Listing.files path l, Tools.jUnitFileRegexExpr (Tools.fileName f) = false →
      f ∈ Tools.Listing.files path (Tools.CleanupJunitFiles l)) ∧
    Tools.Listing.dirs path (Tools.CleanupJunitFiles l) = Tools.Listing.dirs path l ∧
    (∀ pre c post, (Client.main W).calls = pre ++ c :: post → c.writesReport = true →
      ClientCall.CleanupJunitFiles W.artifactsDir ∈ pre) ∧
    Tools.CleanupJunitFiles exampleArtifacts =
      .file "totalcoverage.html" [2] (.dir "junit_old.xml" (.file "notes.txt" [3] .nil) .nil) ∧
    Tools.jUnitFileRegexExpr "old_junit_1.xml.bak" = true ∧
    Tools.jUnitFileRegexExpr "junit.xml" = false := by
  have hfiles := files_CleanupJunitFiles l path
  refine ⟨hfiles, ?_, ?_, dirs_CleanupJunitFiles l path, ?_, by decide, by decide, by decide⟩
  · intro f hf
    rw [hfiles, List.mem_filter] at hf
    exact ⟨by simpa using hf.2, hf.1⟩
  · intro f hf hm
    rw [hfiles, List.mem_filter]
    exact ⟨hf, by simp [hm]⟩
  · intro pre c post hcalls hc
    rcases main_calls_shape W with hshape | ⟨rest, hshape⟩
    · rw [hshape] at hcalls
      have hmem : c ∈ [ClientCall.MkdirAll W.artifactsDir] := by
        rw [hcalls]; simp
      rw [List.mem_singleton] at hmem
      rw [hmem] at hc
      cases hc
    · rw [hshape] at hcalls
      refine mem_before_of_split _ rest pre post _ c hcalls ?_ ?_
      · intro hmem
        cases hs : W.statNotExist
        · rw [hs] at hmem; cases hmem
        · rw [hs] at hmem
          simp only [if_true, List.mem_singleton] at hmem
          rw [hmem] at hc
          cases hc
      · intro heq
        rw [heq] at hc
        cases hc

/-! ## The totality of `GetWebhookServiceURI` -/

theorem GetWebhookServiceURI_returns_of_ports (K : KubeWorld)
    (namespaceName serviceName : String)
    (hports : ∀ svc, K.GetService = .ok svc → svc.Ports ≠ []) :
    ∃ uri err, Tools.GetWebhookServiceURI K namespaceName serviceName = .returned uri err := by
  unfold Tools.GetWebhookServiceURI
  cases hs : K.GetService with
  | error e => exact ⟨_, _, rfl⟩
  | ok svc =>
    have hp := hports svc hs
    simp only
    cases hport : svc.Ports with
    | nil => exact absurd hport hp
    | cons port ports =>
      split
      · split
        · exact ⟨_, _, rfl⟩
        · exact ⟨_, _, rfl⟩
      · split
        · split
          · exact ⟨_, _, rfl⟩
          · exact ⟨_, _, rfl⟩
          · split
            · exact ⟨_, _, rfl⟩
            · exact ⟨_, _, rfl⟩
        · exact ⟨_, _, rfl⟩

theorem GetWebhookServiceURI_indexOutOfRange_of_no_ports (K : KubeWorld)
    (namespaceName serviceName : String) (svc : Service) (hs : K.GetService = .ok svc)
    (hports : svc.Ports = [])
    (hreach : (svc.SpecType = ServiceTypeLoadBalancer ∧ svc.Ingress ≠ []) ∨
      (svc.SpecType = ServiceTypeNodePort ∧
        ∃ node nodes, K.ListNodes = .ok (node :: nodes) ∧ node.Addresses ≠ [])) :
    Tools.GetWebhookServiceURI K namespaceName serviceName = .indexOutOfRange := by
  unfold Tools.GetWebhookServiceURI
  rw [hs]
  rcases hreach with ⟨hlb, hi⟩ | ⟨hnp, node, nodes, hn, ha⟩
  · simp only [if_pos hlb, hports]
    cases hing : svc.Ingress with
    | nil => exact absurd hing hi
    | cons ip ingresses => rfl
  · have hlb : ¬ svc.SpecType = ServiceTypeLoadBalancer := by
      rw [hnp]; decide
    simp only [if_neg hlb, if_pos hnp, hn, hports]
    cases haddr : node.Addresses with
    | nil => exact absurd haddr ha
    | cons address addresses => rfl

/-- C21, at the failing inputs. For a service of type LoadBalancer with one ingress and an
empty list of service ports, and for a service of type NodePort with an empty list of
service ports whose first node has an address, `GetWebhookServiceURI` passes the checks on
the ingresses, the nodes and the addresses and then indexes `svc.Spec.Ports[0]` out of
range: it returns neither a URI nor an error. -/
theorem GetWebhookServiceURI_no_ports_index_out_of_range :
    Tools.GetWebhookServiceURI exampleLoadBalancerNoPorts "k8s-api-coverage"
      "apicoverage-webhook" = .indexOutOfRange ∧
    Tools.GetWebhookServiceURI exampleNodePortNoPorts "k8s-api-coverage"
      "apicoverage-webhook" = .indexOutOfRange ∧
    (∀ uri err,
      Tools.GetWebhookServiceURI exampleLoadBalancerNoPorts "k8s-api-coverage"
        "apicoverage-webhook" ≠ .returned uri err) ∧
    (∀ uri err,
      Tools.GetWebhookServiceURI exampleNodePortNoPorts "k8s-api-coverage"
        "apicoverage-webhook" ≠ .returned uri err) := by
  have h1 : Tools.GetWebhookServiceURI exampleLoadBalancerNoPorts "k8s-api-coverage"
      "apicoverage-webhook" = .indexOutOfRange := by decide
  have h2 : Tools.GetWebhookServiceURI exampleNodePortNoPorts "k8s-api-coverage"
      "apicoverage-webhook" = .indexOutOfRange := by decide
  refine ⟨h1, h2, ?_, ?_⟩
  · intro uri err h
    rw [h1] at h
    cases h
  · intro uri err h
    rw [h2] at h
    cases h

end ApiCoverage
